import Mathlib

/-!
TinyBFT static memory layout.

A shallow embedding of `memory_layout.h` / `memory_layout.c`.

* A C array `T a[SIZE]` is a `List T` holding `SIZE` elements; a loop
  `for (i = 0; i < SIZE; i++)` over such an array is a traversal of the list that
  carries the running index `i`.
* `uint32_t` / `uint8_t` values are natural numbers; the bound `UINT32_MAX` is
  stated as a hypothesis wherever a result depends on it.
* A `void*` is the address it holds (`0` is `NULL`).  The addresses of the four
  static regions are fixed at link time and are part of `Config`, next to the
  `#ifndef`-guarded macros of the header.  A pointer `&slots[i]` or
  `&certificates[i]` returned by the window and checkpoint stores is the index `i`
  (`none` for `NULL`).
* The file-level statics of `memory_layout.c` form the record `Memory`; every
  function takes the memory before the call and returns its result together
  with the memory after the call.
-/

namespace TinyBFT

/-! ## Configuration -/

/-- Build parameters: the configuration macros of `memory_layout.h` and the
link-time addresses of the four static regions of `memory_layout.c`. -/
structure Config where
  TINYBFT_MAX_REPLICAS : Nat
  TINYBFT_MAX_FAULTY : Nat
  TINYBFT_WINDOW_SIZE : Nat
  TINYBFT_CHECKPOINT_INTERVAL : Nat
  TINYBFT_MAX_CLIENTS : Nat
  TINYBFT_MAX_MSG_SIZE : Nat
  agreement_region_addr : Nat
  checkpoint_region_addr : Nat
  event_region_addr : Nat
  scratch_region_addr : Nat
deriving DecidableEq, Repr

/-- The largest `uint32_t`. -/
def UINT32_MAX : Nat := 4294967295

/-- The number of checkpoint certificates, `TINYBFT_WINDOW_SIZE / TINYBFT_CHECKPOINT_INTERVAL + 1`. -/
def Config.num_certs (cfg : Config) : Nat :=
  cfg.TINYBFT_WINDOW_SIZE / cfg.TINYBFT_CHECKPOINT_INTERVAL + 1

/-- The header defaults (N = 4, f = (N - 1) / 3, W = 4, K = 2, 4 clients, 1024-byte
messages) with the regions placed at the given addresses. -/
def defaultConfig (a c e s : Nat) : Config :=
  { TINYBFT_MAX_REPLICAS := 4
    TINYBFT_MAX_FAULTY := (4 - 1) / 3
    TINYBFT_WINDOW_SIZE := 4
    TINYBFT_CHECKPOINT_INTERVAL := 2
    TINYBFT_MAX_CLIENTS := 4
    TINYBFT_MAX_MSG_SIZE := 1024
    agreement_region_addr := a
    checkpoint_region_addr := c
    event_region_addr := e
    scratch_region_addr := s }

/-- The tags of `tinybft_memory_region_t`, as the integers the enum assigns. -/
def MEMORY_REGION_AGREEMENT : Nat := 0
/-- Tag of the checkpoint region. -/
def MEMORY_REGION_CHECKPOINT : Nat := 1
/-- Tag of the event region. -/
def MEMORY_REGION_EVENT : Nat := 2
/-- Tag of the scratch region. -/
def MEMORY_REGION_SCRATCH : Nat := 3
/-- The enumerator that counts the tags; not a region. -/
def MEMORY_REGION_COUNT : Nat := 4

/-! ## Data model -/

/-- Mirror of `tinybft_prepare_certificate_t`. -/
structure tinybft_prepare_certificate_t where
  view : Nat
  seq_num : Nat
  valid : Bool
  pre_prepare : List Nat
  prepares : List (List Nat)
  prepare_count : Nat
deriving DecidableEq, Repr

/-- Mirror of `tinybft_commit_certificate_t`. -/
structure tinybft_commit_certificate_t where
  view : Nat
  seq_num : Nat
  valid : Bool
  commits : List (List Nat)
  commit_count : Nat
deriving DecidableEq, Repr

/-- Mirror of `tinybft_checkpoint_certificate_t`. -/
structure tinybft_checkpoint_certificate_t where
  seq_num : Nat
  valid : Bool
  checkpoints : List (List Nat)
  checkpoint_count : Nat
deriving DecidableEq, Repr

/-- Mirror of `tinybft_agreement_slot_t`. -/
structure tinybft_agreement_slot_t where
  seq_num : Nat
  prepare_cert : tinybft_prepare_certificate_t
  commit_cert : tinybft_commit_certificate_t
deriving DecidableEq, Repr

/-- Mirror of `tinybft_agreement_region_t`: `slots[TINYBFT_WINDOW_SIZE]`. -/
structure tinybft_agreement_region_t where
  slots : List tinybft_agreement_slot_t
deriving DecidableEq, Repr

/-- Mirror of `tinybft_checkpoint_region_t`. -/
structure tinybft_checkpoint_region_t where
  certificates : List tinybft_checkpoint_certificate_t
  checkpoint_msgs : List (List Nat)
deriving DecidableEq, Repr

/-- Mirror of `tinybft_event_region_t`. -/
structure tinybft_event_region_t where
  client_requests : List (List Nat)
  client_replies : List (List Nat)
  view_change_msgs : List (List Nat)
  new_view_msgs : List (List Nat)
deriving DecidableEq, Repr

/-- Mirror of `tinybft_scratch_region_t`: `buffers[N][MAX_MSG_SIZE]` and `buffer_used[N]`. -/
structure tinybft_scratch_region_t where
  buffers : List (List Nat)
  buffer_used : List Nat
deriving DecidableEq, Repr

/-- The file-level statics of `memory_layout.c`. -/
structure Memory where
  agreement_region : tinybft_agreement_region_t
  checkpoint_region : tinybft_checkpoint_region_t
  event_region : tinybft_event_region_t
  scratch_region : tinybft_scratch_region_t
  using_nvm : Bool
deriving DecidableEq, Repr

/-! ## Zeroed objects (`memset(p, 0, sizeof(T))`) -/

/-- An all-zero `uint8_t[n]`. -/
def zero_bytes (n : Nat) : List Nat := List.replicate n 0

/-- An all-zero `uint8_t[rows][cols]`. -/
def zero_matrix (rows cols : Nat) : List (List Nat) := List.replicate rows (zero_bytes cols)

/-- An all-zero `tinybft_prepare_certificate_t`. -/
def zero_prepare_certificate (cfg : Config) : tinybft_prepare_certificate_t :=
  { view := 0
    seq_num := 0
    valid := false
    pre_prepare := zero_bytes cfg.TINYBFT_MAX_MSG_SIZE
    prepares := zero_matrix cfg.TINYBFT_MAX_REPLICAS cfg.TINYBFT_MAX_MSG_SIZE
    prepare_count := 0 }

/-- An all-zero `tinybft_commit_certificate_t`. -/
def zero_commit_certificate (cfg : Config) : tinybft_commit_certificate_t :=
  { view := 0
    seq_num := 0
    valid := false
    commits := zero_matrix cfg.TINYBFT_MAX_REPLICAS cfg.TINYBFT_MAX_MSG_SIZE
    commit_count := 0 }

/-- An all-zero `tinybft_checkpoint_certificate_t`. -/
def zero_checkpoint_certificate (cfg : Config) : tinybft_checkpoint_certificate_t :=
  { seq_num := 0
    valid := false
    checkpoints := zero_matrix cfg.TINYBFT_MAX_REPLICAS cfg.TINYBFT_MAX_MSG_SIZE
    checkpoint_count := 0 }

/-- An all-zero `tinybft_agreement_slot_t`. -/
def zero_agreement_slot (cfg : Config) : tinybft_agreement_slot_t :=
  { seq_num := 0
    prepare_cert := zero_prepare_certificate cfg
    commit_cert := zero_commit_certificate cfg }

/-- An all-zero `tinybft_agreement_region_t`. -/
def zero_agreement_region (cfg : Config) : tinybft_agreement_region_t :=
  { slots := List.replicate cfg.TINYBFT_WINDOW_SIZE (zero_agreement_slot cfg) }

/-- An all-zero `tinybft_checkpoint_region_t`. -/
def zero_checkpoint_region (cfg : Config) : tinybft_checkpoint_region_t :=
  { certificates := List.replicate cfg.num_certs (zero_checkpoint_certificate cfg)
    checkpoint_msgs := zero_matrix cfg.TINYBFT_MAX_REPLICAS cfg.TINYBFT_MAX_MSG_SIZE }

/-- An all-zero `tinybft_event_region_t`. -/
def zero_event_region (cfg : Config) : tinybft_event_region_t :=
  { client_requests := zero_matrix cfg.TINYBFT_MAX_CLIENTS cfg.TINYBFT_MAX_MSG_SIZE
    client_replies := zero_matrix cfg.TINYBFT_MAX_CLIENTS cfg.TINYBFT_MAX_MSG_SIZE
    view_change_msgs := zero_matrix cfg.TINYBFT_MAX_REPLICAS cfg.TINYBFT_MAX_MSG_SIZE
    new_view_msgs := zero_matrix cfg.TINYBFT_MAX_REPLICAS cfg.TINYBFT_MAX_MSG_SIZE }

/-- An all-zero `tinybft_scratch_region_t`. -/
def zero_scratch_region (cfg : Config) : tinybft_scratch_region_t :=
  { buffers := zero_matrix cfg.TINYBFT_MAX_REPLICAS cfg.TINYBFT_MAX_MSG_SIZE
    buffer_used := List.replicate cfg.TINYBFT_MAX_REPLICAS 0 }

/-! ## Region manager -/

/-- `tinybft_memory_init`: the four regions are overwritten with zeros; `using_nvm`
is not touched. -/
def tinybft_memory_init (cfg : Config) (m : Memory) : Memory :=
  { m with
    agreement_region := zero_agreement_region cfg
    checkpoint_region := zero_checkpoint_region cfg
    event_region := zero_event_region cfg
    scratch_region := zero_scratch_region cfg }

/-- The statics as the C runtime sets them up before `main`: zero-initialised
regions and `using_nvm = false`. -/
def startup (cfg : Config) : Memory :=
  { agreement_region := zero_agreement_region cfg
    checkpoint_region := zero_checkpoint_region cfg
    event_region := zero_event_region cfg
    scratch_region := zero_scratch_region cfg
    using_nvm := false }

/-- `tinybft_memory_set_nvm`. -/
def tinybft_memory_set_nvm (use_nvm : Bool) (m : Memory) : Memory :=
  { m with using_nvm := use_nvm }

/-- `tinybft_get_region`: the address of the region a tag designates, `NULL` (0) for
any other value.  Nothing is written. -/
def tinybft_get_region (cfg : Config) (region : Nat) (m : Memory) : Nat × Memory :=
  if region = MEMORY_REGION_AGREEMENT then (cfg.agreement_region_addr, m)
  else if region = MEMORY_REGION_CHECKPOINT then (cfg.checkpoint_region_addr, m)
  else if region = MEMORY_REGION_EVENT then (cfg.event_region_addr, m)
  else if region = MEMORY_REGION_SCRATCH then (cfg.scratch_region_addr, m)
  else (0, m)

/-! ## Scratch allocator -/

/-- The address of `scratch_region.buffers[i]`: `buffers` is the first member of the
scratch region and each row is `TINYBFT_MAX_MSG_SIZE` bytes long. -/
def buffer_addr (cfg : Config) (i : Nat) : Nat :=
  cfg.scratch_region_addr + i * cfg.TINYBFT_MAX_MSG_SIZE

/-- The loop of `tinybft_alloc_from_scratch` from index `i` on: the index of the
first entry of `buffer_used` that is zero. -/
def alloc_scan : List Nat → Nat → Option Nat
  | [], _ => none
  | used :: rest, i => if used = 0 then some i else alloc_scan rest (i + 1)

/-- `tinybft_alloc_from_scratch`: returns the address of the buffer handed out, or
`NULL` (0). -/
def tinybft_alloc_from_scratch (cfg : Config) (size : Nat) (m : Memory) : Nat × Memory :=
  if size > cfg.TINYBFT_MAX_MSG_SIZE then (0, m)
  else
    match alloc_scan m.scratch_region.buffer_used 0 with
    | some i =>
      (buffer_addr cfg i,
        { m with scratch_region :=
            { m.scratch_region with buffer_used := m.scratch_region.buffer_used.set i size } })
    | none => (0, m)

/-- The first loop of `tinybft_move_to_region` from index `i` on: the index of the
first buffer whose address equals `scratch_ptr` (`found` and `buffer_idx`). -/
def move_scan (cfg : Config) (scratch_ptr : Nat) : List (List Nat) → Nat → Option Nat
  | [], _ => none
  | _ :: rest, i =>
    if buffer_addr cfg i = scratch_ptr then some i else move_scan cfg scratch_ptr rest (i + 1)

/-- `tinybft_move_to_region`.  The three destination branches of the source are
empty (comments only), so the only store is the reset of `buffer_used[buffer_idx]`. -/
def tinybft_move_to_region (cfg : Config) (dst_region : Nat) (scratch_ptr : Nat) (size : Nat)
    (m : Memory) : Memory :=
  match move_scan cfg scratch_ptr m.scratch_region.buffers 0 with
  | none => m
  | some buffer_idx =>
    if m.scratch_region.buffer_used.getD buffer_idx 0 = 0 then m
    else
      let m1 :=
        if dst_region = MEMORY_REGION_AGREEMENT then m
        else if dst_region = MEMORY_REGION_CHECKPOINT then m
        else if dst_region = MEMORY_REGION_EVENT then m
        else m
      { m1 with scratch_region :=
          { m1.scratch_region with
            buffer_used := m1.scratch_region.buffer_used.set buffer_idx 0 } }

/-! ## Agreement window store -/

/-- The loop of `tinybft_find_agreement_slot` from index `i` on. -/
def find_agreement_scan (seq_num : Nat) : List tinybft_agreement_slot_t → Nat → Option Nat
  | [], _ => none
  | s :: rest, i =>
    if s.seq_num = seq_num then some i else find_agreement_scan seq_num rest (i + 1)

/-- `tinybft_find_agreement_slot`: the index `i` of the slot `&agreement_region.slots[i]`
returned, or `none` for `NULL`.  Nothing is written. -/
def tinybft_find_agreement_slot (seq_num : Nat) (m : Memory) : Option Nat × Memory :=
  (find_agreement_scan seq_num m.agreement_region.slots 0, m)

/-- The loop of `tinybft_init_agreement_slot` from index `i` on, with the current
`oldest_idx` and `oldest_seq`; returns the final `oldest_idx`. -/
def oldest_scan : List tinybft_agreement_slot_t → Nat → Nat → Nat → Nat
  | [], _, oldest_idx, _ => oldest_idx
  | s :: rest, i, oldest_idx, oldest_seq =>
    if s.seq_num < oldest_seq then oldest_scan rest (i + 1) i s.seq_num
    else oldest_scan rest (i + 1) oldest_idx oldest_seq

/-- `tinybft_init_agreement_slot`: returns the index of the slot reused and the
memory in which that slot is zeroed and stamped with `seq_num`. -/
def tinybft_init_agreement_slot (cfg : Config) (seq_num : Nat) (m : Memory) : Nat × Memory :=
  let oldest_idx := oldest_scan m.agreement_region.slots 0 0 UINT32_MAX
  let slot := { zero_agreement_slot cfg with seq_num := seq_num }
  (oldest_idx,
    { m with agreement_region := { slots := m.agreement_region.slots.set oldest_idx slot } })

/-! ## Checkpoint store -/

/-- The first loop of `tinybft_find_checkpoint_cert` from index `i` on. -/
def find_checkpoint_scan (seq_num : Nat) :
    List tinybft_checkpoint_certificate_t → Nat → Option Nat
  | [], _ => none
  | c :: rest, i =>
    if c.seq_num = seq_num then some i else find_checkpoint_scan seq_num rest (i + 1)

/-- The second loop of `tinybft_find_checkpoint_cert` from index `i` on; returns the
final `oldest_idx`. -/
def oldest_invalid_scan : List tinybft_checkpoint_certificate_t → Nat → Nat → Nat → Nat
  | [], _, oldest_idx, _ => oldest_idx
  | c :: rest, i, oldest_idx, oldest_seq =>
    if c.seq_num < oldest_seq ∧ c.valid = false then oldest_invalid_scan rest (i + 1) i c.seq_num
    else oldest_invalid_scan rest (i + 1) oldest_idx oldest_seq

/-- `tinybft_find_checkpoint_cert`: the index of the certificate returned and the
memory after the call. -/
def tinybft_find_checkpoint_cert (cfg : Config) (seq_num : Nat) (m : Memory) : Nat × Memory :=
  match find_checkpoint_scan seq_num m.checkpoint_region.certificates 0 with
  | some i => (i, m)
  | none =>
    let oldest_idx := oldest_invalid_scan m.checkpoint_region.certificates 0 0 UINT32_MAX
    let cert := { zero_checkpoint_certificate cfg with seq_num := seq_num }
    (oldest_idx,
      { m with checkpoint_region :=
          { m.checkpoint_region with
            certificates := m.checkpoint_region.certificates.set oldest_idx cert } })


/-! ## Auxiliary definitions used in the statements -/

/-- An example build: the header defaults with the regions at 64 KiB steps. -/
def exampleConfig : Config := defaultConfig 65536 131072 196608 262144

/-- The calls `tinybft_init_agreement_slot(s)`, one for each `s` of `calls`, made one
after another. -/
def init_many (cfg : Config) : List Nat → Memory → Memory
  | [], m => m
  | s :: rest, m => init_many cfg rest (tinybft_init_agreement_slot cfg s m).2

/-- The sequence numbers resident in the agreement window, in slot order. -/
def resident_seq_nums (m : Memory) : List Nat :=
  m.agreement_region.slots.map (fun s => s.seq_num)

/-- Whether slot `idx` is spared by every call of a run: none of the calls
`tinybft_init_agreement_slot(s)`, `s` in `calls`, selects `idx` for reuse. -/
def slot_survives (cfg : Config) (idx : Nat) : List Nat → Memory → Bool
  | [], _ => true
  | s :: rest, m =>
    decide ((tinybft_init_agreement_slot cfg s m).1 ≠ idx) &&
      slot_survives cfg idx rest (tinybft_init_agreement_slot cfg s m).2

/-- The memories reachable from `tinybft_memory_init` by calls of
`tinybft_init_agreement_slot` that are each made only when
`tinybft_find_agreement_slot` reports the sequence number absent. -/
inductive Reachable (cfg : Config) : Memory → Prop
  | init (m0 : Memory) : Reachable cfg (tinybft_memory_init cfg m0)
  | step (m : Memory) (seq : Nat) :
      Reachable cfg m →
      (tinybft_find_agreement_slot seq m).1 = none →
      Reachable cfg (tinybft_init_agreement_slot cfg seq m).2

/-- Slot `idx` is the only slot of the window that carries `seq`. -/
def OnlyAt (seq idx : Nat) (l : List tinybft_agreement_slot_t) : Prop :=
  (∃ s, l[idx]? = some s ∧ s.seq_num = seq) ∧
    ∀ j, j ≠ idx → ∀ t, l[j]? = some t → t.seq_num ≠ seq

/-- The calls `tinybft_alloc_from_scratch(s)`, one for each `s` of `sizes`, made one after
another (the addresses returned are dropped). -/
def alloc_many (cfg : Config) : List Nat → Memory → Memory
  | [], m => m
  | s :: rest, m => alloc_many cfg rest (tinybft_alloc_from_scratch cfg s m).2

/-- All payload bytes of the agreement region, slot by slot: the pre-prepare, the
prepares and the commits. -/
def agreement_region_bytes (r : tinybft_agreement_region_t) : List Nat :=
  (r.slots.map (fun s =>
    s.prepare_cert.pre_prepare ++ s.prepare_cert.prepares.flatten ++ s.commit_cert.commits.flatten)).flatten

/-- All payload bytes of the checkpoint region. -/
def checkpoint_region_bytes (r : tinybft_checkpoint_region_t) : List Nat :=
  (r.certificates.map (fun c => c.checkpoints.flatten)).flatten ++ r.checkpoint_msgs.flatten

/-- All payload bytes of the event region. -/
def event_region_bytes (r : tinybft_event_region_t) : List Nat :=
  r.client_requests.flatten ++ r.client_replies.flatten ++ r.view_change_msgs.flatten ++
    r.new_view_msgs.flatten

/-- The zeroed memory of the default build in which scratch buffer 0 is in use and stages
the four bytes 7, 7, 7, 7 (`buffer_used[0] = 4`). -/
def stagedMemory : Memory :=
  { startup exampleConfig with
    scratch_region :=
      { buffers := ([7, 7, 7, 7] ++ zero_bytes 1020) :: zero_matrix 3 1024
        buffer_used := [4, 0, 0, 0] } }

/-- The caller's store `cert->valid = true` through the pointer to certificate `i`
(no function of `memory_layout.c` sets the flag). -/
def checkpoint_mark_valid (i : Nat) (m : Memory) : Memory :=
  match m.checkpoint_region.certificates[i]? with
  | some c =>
    { m with checkpoint_region :=
        { m.checkpoint_region with
          certificates := m.checkpoint_region.certificates.set i { c with valid := true } } }
  | none => m

/-- The header defaults with a checkpoint every 3 sequence numbers: two certificates. -/
def everyThirdConfig : Config := { exampleConfig with TINYBFT_CHECKPOINT_INTERVAL := 3 }

/-- A memory of `everyThirdConfig` built through the interface: the certificate for 3 is
created (index 0) and marked valid by the caller, then the certificate for
`UINT32_MAX = 3 * 1431655765` is created (index 1, not valid). -/
def sentinelMemory : Memory :=
  (tinybft_find_checkpoint_cert everyThirdConfig UINT32_MAX
    (checkpoint_mark_valid 0
      (tinybft_find_checkpoint_cert everyThirdConfig 3 (startup everyThirdConfig)).2)).2

/-- The sequence number and validity flag of every certificate, in index order. -/
def certificate_keys (m : Memory) : List (Nat × Bool) :=
  m.checkpoint_region.certificates.map (fun c => (c.seq_num, c.valid))

/-- The indices of the slots reused by the calls `tinybft_init_agreement_slot(s)`, one for
each `s` of `calls`, made one after another. -/
def init_indices (cfg : Config) : List Nat → Memory → List Nat
  | [], _ => []
  | s :: rest, m =>
    (tinybft_init_agreement_slot cfg s m).1 ::
      init_indices cfg rest (tinybft_init_agreement_slot cfg s m).2

/-! ## Certificate aggregator -/

/-- Modelled from the spec: the vote array, the senders that have voted and the count
after one vote (section 4.4). The payload is stored at the position indexed by the sender,
bounded by the replica count; the count is incremented for the first vote of a sender,
while a second vote from the same sender overwrites rather than appends. The sources
declare the vote arrays and the counts but no function that appends a vote and no record
of who has voted; the spec states the rule in terms of the senders that have already voted
without saying how they are recorded, so their list `voted` is carried explicitly. -/
def append_vote (cfg : Config) (sender : Nat) (payload : List Nat)
    (votes : List (List Nat)) (voted : List Nat) (count : Nat) :
    List (List Nat) × List Nat × Nat :=
  if sender < cfg.TINYBFT_MAX_REPLICAS then
    if sender ∈ voted then (votes.set sender payload, voted, count)
    else (votes.set sender payload, sender :: voted, count + 1)
  else (votes, voted, count)

/-- Modelled from the spec: a prepare certificate of the sources together with the
senders whose vote it holds (section 4.4 tells a first vote of a sender from a repeated
one; `tinybft_prepare_certificate_t` has no field for that, so the senders are kept next
to it). -/
structure prepare_votes where
  cert : tinybft_prepare_certificate_t
  voted : List Nat
deriving DecidableEq, Repr

/-- Modelled from the spec: a commit certificate of the sources together with the senders
whose vote it holds ("the same threshold and same anti-duplication rule apply to commit
votes"); `tinybft_commit_certificate_t` has no field for that. -/
structure commit_votes where
  cert : tinybft_commit_certificate_t
  voted : List Nat
deriving DecidableEq, Repr

/-- Modelled from the spec: the prepare certificate of a slot that was just initialised:
the certificate as `tinybft_init_agreement_slot` left it, and no sender has voted. -/
def no_prepare_votes (cert : tinybft_prepare_certificate_t) : prepare_votes :=
  { cert := cert, voted := [] }

/-- Modelled from the spec: the commit certificate of a slot that was just initialised:
the certificate as `tinybft_init_agreement_slot` left it, and no sender has voted. -/
def no_commit_votes (cert : tinybft_commit_certificate_t) : commit_votes :=
  { cert := cert, voted := [] }

/-- Modelled from the spec: appending a prepare vote (`append_vote` on `prepares`,
`prepare_count` and the senders that have voted); the function is missing from the
sources. -/
def append_prepare_vote (cfg : Config) (sender : Nat) (payload : List Nat)
    (pv : prepare_votes) : prepare_votes :=
  { cert :=
      { pv.cert with
        prepares :=
          (append_vote cfg sender payload pv.cert.prepares pv.voted pv.cert.prepare_count).1
        prepare_count :=
          (append_vote cfg sender payload pv.cert.prepares pv.voted pv.cert.prepare_count).2.2 }
    voted :=
      (append_vote cfg sender payload pv.cert.prepares pv.voted pv.cert.prepare_count).2.1 }

/-- Modelled from the spec: appending a commit vote (`append_vote` on `commits`,
`commit_count` and the senders that have voted); the function is missing from the
sources. -/
def append_commit_vote (cfg : Config) (sender : Nat) (payload : List Nat)
    (cv : commit_votes) : commit_votes :=
  { cert :=
      { cv.cert with
        commits :=
          (append_vote cfg sender payload cv.cert.commits cv.voted cv.cert.commit_count).1
        commit_count :=
          (append_vote cfg sender payload cv.cert.commits cv.voted cv.cert.commit_count).2.2 }
    voted :=
      (append_vote cfg sender payload cv.cert.commits cv.voted cv.cert.commit_count).2.1 }

/-- Modelled from the spec: a prepare certificate is complete once its count is at least
`2f + 1`; the query is missing from the sources. -/
def prepare_complete (cfg : Config) (cert : tinybft_prepare_certificate_t) : Bool :=
  decide (2 * cfg.TINYBFT_MAX_FAULTY + 1 ≤ cert.prepare_count)

/-- Modelled from the spec: a commit certificate is complete once its count is at least
`2f + 1`; the query is missing from the sources. -/
def commit_complete (cfg : Config) (cert : tinybft_commit_certificate_t) : Bool :=
  decide (2 * cfg.TINYBFT_MAX_FAULTY + 1 ≤ cert.commit_count)

/-- Modelled from the spec: the prepare votes `(sender, payload)` of a list appended one
after another. -/
def append_prepare_votes (cfg : Config) : List (Nat × List Nat) → prepare_votes → prepare_votes
  | [], pv => pv
  | v :: rest, pv => append_prepare_votes cfg rest (append_prepare_vote cfg v.1 v.2 pv)

/-- Modelled from the spec: the commit votes `(sender, payload)` of a list appended one
after another. -/
def append_commit_votes (cfg : Config) : List (Nat × List Nat) → commit_votes → commit_votes
  | [], cv => cv
  | v :: rest, cv => append_commit_votes cfg rest (append_commit_vote cfg v.1 v.2 cv)

/-- Modelled from the spec: the votes `(sender, payload)` of a list applied to a vote
array, the senders that have voted and the count, one after another (`append_vote`
iterated). -/
def append_votes (cfg : Config) :
    List (Nat × List Nat) → List (List Nat) → List Nat → Nat → List (List Nat) × List Nat × Nat
  | [], votes, voted, count => (votes, voted, count)
  | v :: rest, votes, voted, count =>
    append_votes cfg rest (append_vote cfg v.1 v.2 votes voted count).1
      (append_vote cfg v.1 v.2 votes voted count).2.1
      (append_vote cfg v.1 v.2 votes voted count).2.2

/-- The senders of a list of votes that lie below the replica count. -/
def senders_in_range (cfg : Config) (vs : List (Nat × List Nat)) : List Nat :=
  (vs.map Prod.fst).filter (fun s => decide (s < cfg.TINYBFT_MAX_REPLICAS))

/-- A vote payload for the examples: the message type, the sender, the view and the
sequence number. -/
def vote_payload (msg_type sender view seq : Nat) : List Nat := [msg_type, sender, view, seq]

/-- The slot that `tinybft_init_agreement_slot(5)` hands out in the default build: the
all-zero slot stamped with sequence number 5. -/
def slot_five : tinybft_agreement_slot_t :=
  { zero_agreement_slot exampleConfig with seq_num := 5 }

/-- The prepare votes of replicas 0, 1 and 2 for view 0 and sequence number 5
(`MSG_TYPE_PREPARE` is 3). -/
def three_prepares : List (Nat × List Nat) :=
  [(0, vote_payload 3 0 0 5), (1, vote_payload 3 1 0 5), (2, vote_payload 3 2 0 5)]

/-! ## The demo's replicated key-value store (`tinybft_demo.c`)

A C string is the list of its characters before the terminating NUL; `strcmp(a, b) == 0`
is equality of these lists, and `strncpy(dst, src, n - 1); dst[n - 1] = 0` leaves in `dst`
the first `n - 1` characters of `src`. -/

/-- `NUM_REPLICAS`. -/
def NUM_REPLICAS : Nat := 4
/-- `MAX_KEY_SIZE`: size of the `key` buffer of an entry, terminator included. -/
def MAX_KEY_SIZE : Nat := 32
/-- `MAX_VALUE_SIZE`: size of the `value` buffer of an entry, terminator included. -/
def MAX_VALUE_SIZE : Nat := 256
/-- `MAX_KEYS`: entries per store. -/
def MAX_KEYS : Nat := 10

/-- Mirror of `kv_pair_t`. -/
structure kv_pair_t where
  key : List Char
  value : List Char
  used : Bool
deriving DecidableEq, Repr

/-- Mirror of `replica_t`. -/
structure replica_t where
  id : Int
  view : Int
  seq_num : Int
  is_primary : Bool
  is_faulty : Bool
  kv_store : List kv_pair_t
deriving DecidableEq, Repr

/-- The globals of `tinybft_demo.c`: `replicas[NUM_REPLICAS]` and `current_seq`. -/
structure DemoState where
  replicas : List replica_t
  current_seq : Int
deriving DecidableEq, Repr

/-- `get_primary_for_view`. -/
def get_primary_for_view (view : Int) : Int := view % (NUM_REPLICAS : Int)

/-- `initialize_system`: every replica is reset, its store zeroed (`memset`), and
`current_seq` set to 0; nothing of the prior state survives. -/
def initialize_system : DemoState :=
  { replicas := (List.range NUM_REPLICAS).map (fun i =>
      { id := (i : Int)
        view := 0
        seq_num := 0
        is_primary := decide ((i : Int) = get_primary_for_view 0)
        is_faulty := false
        kv_store := List.replicate MAX_KEYS { key := [], value := [], used := false } })
    current_seq := 0 }

/-- What `sscanf(command, "%31s %255s %255s", ...)` and the test `arg[0] != 0` of
`process_command` let through as a PUT argument: a non-empty token of at most 255
characters. -/
def parser_accepts (arg : List Char) : Prop := arg ≠ [] ∧ arg.length ≤ 255

/-- The loop of `update_kv_store` from index `i` on with the current `empty_slot`:
`Sum.inl i` when the used entry `i` holds `key` (the branch that updates and returns),
otherwise `Sum.inr empty_slot` with the final `empty_slot`. -/
def update_kv_scan (key : List Char) : List kv_pair_t → Nat → Int → Sum Nat Int
  | [], _, empty_slot => Sum.inr empty_slot
  | e :: rest, i, empty_slot =>
    if e.used = true ∧ e.key = key then Sum.inl i
    else if e.used = false ∧ empty_slot < 0 then update_kv_scan key rest (i + 1) (i : Int)
    else update_kv_scan key rest (i + 1) empty_slot

/-- The store of one replica after `update_kv_store` (for a non-empty key). -/
def update_kv_entries (key value : List Char) (kv_store : List kv_pair_t) : List kv_pair_t :=
  match update_kv_scan key kv_store 0 (-1) with
  | Sum.inl i =>
    match kv_store[i]? with
    | some e => kv_store.set i { e with value := value.take (MAX_VALUE_SIZE - 1) }
    | none => kv_store
  | Sum.inr empty_slot =>
    if empty_slot ≥ 0 then
      kv_store.set empty_slot.toNat
        { key := key.take (MAX_KEY_SIZE - 1)
          value := value.take (MAX_VALUE_SIZE - 1)
          used := true }
    else kv_store

/-- `update_kv_store`. -/
def update_kv_store (replica_id : Nat) (key value : List Char) (d : DemoState) : DemoState :=
  if key = [] then d
  else
    match d.replicas[replica_id]? with
    | some r =>
      { d with replicas :=
          d.replicas.set replica_id { r with kv_store := update_kv_entries key value r.kv_store } }
    | none => d

/-- The inner loop of `execute_get_command`: the value of the first used entry whose
stored key equals `key`, or `none` for "not found". -/
def get_scan (key : List Char) : List kv_pair_t → Option (List Char)
  | [] => none
  | e :: rest => if e.used = true ∧ e.key = key then some e.value else get_scan key rest

/-- `execute_get_command`: what is printed for each replica, in order: the value found
or `none` for "Key not found". The globals are not written. -/
def execute_get_command (key : List Char) (d : DemoState) : List (Option (List Char)) :=
  d.replicas.map (fun r => get_scan key r.kv_store)

/-- The number of used entries of a replica's store. -/
def used_entries (d : DemoState) (replica_id : Nat) : Nat :=
  match d.replicas[replica_id]? with
  | some r => r.kv_store.countP (fun e => e.used)
  | none => 0

/-- A key of 32 characters, one more than an entry's `key` buffer can hold. -/
def long_key : List Char := List.replicate 32 'k'

/-! ## Lemmas on the scans -/

theorem find_agreement_scan_none (seq_num : Nat) (l : List tinybft_agreement_slot_t) (i : Nat) :
    find_agreement_scan seq_num l i = none ↔ ∀ s ∈ l, s.seq_num ≠ seq_num := by
  induction l generalizing i with
  | nil => simp [find_agreement_scan]
  | cons s rest ih =>
    by_cases h : s.seq_num = seq_num
    · simp [find_agreement_scan, h]
    · simp [find_agreement_scan, h, ih]

theorem find_agreement_scan_some (seq_num : Nat) (l : List tinybft_agreement_slot_t) (i j : Nat) :
    find_agreement_scan seq_num l i = some j ↔
      ∃ k, j = i + k ∧ (∃ s, l[k]? = some s ∧ s.seq_num = seq_num) ∧
        ∀ k', k' < k → ∀ t, l[k']? = some t → t.seq_num ≠ seq_num := by
  induction l generalizing i with
  | nil => simp [find_agreement_scan]
  | cons s rest ih =>
    by_cases h : s.seq_num = seq_num
    · simp only [find_agreement_scan, h, if_true, Option.some.injEq]
      constructor
      · intro hj
        exact ⟨0, by omega, ⟨s, by simp, h⟩, by intro k' hk'; omega⟩
      · rintro ⟨k, hk, -, hmin⟩
        cases k with
        | zero => omega
        | succ k => exact absurd h (hmin 0 (by omega) s (by simp))
    · simp only [find_agreement_scan, h, if_false, ih]
      constructor
      · rintro ⟨k, hk, ⟨t, ht, hts⟩, hmin⟩
        refine ⟨k + 1, by omega, ⟨t, by simpa using ht, hts⟩, ?_⟩
        intro k' hk' u hu
        cases k' with
        | zero =>
          simp at hu
          subst hu
          exact h
        | succ k' => exact hmin k' (by omega) u (by simpa using hu)
      · rintro ⟨k, hk, ⟨t, ht, hts⟩, hmin⟩
        cases k with
        | zero =>
          simp at ht
          subst ht
          exact absurd hts h
        | succ k =>
          refine ⟨k, by omega, ⟨t, by simpa using ht, hts⟩, ?_⟩
          intro k' hk' u hu
          exact hmin (k' + 1) (by omega) u (by simpa using hu)

/-- What the loop of `tinybft_init_agreement_slot` computes: either no slot is below
the running `oldest_seq` and the running index is kept, or the result is the
lowest-indexed slot of smallest sequence number. -/
theorem oldest_scan_spec (l : List tinybft_agreement_slot_t) (i idx0 seq0 : Nat) :
    (oldest_scan l i idx0 seq0 = idx0 ∧ ∀ s ∈ l, seq0 ≤ s.seq_num) ∨
      ∃ k t, oldest_scan l i idx0 seq0 = i + k ∧ l[k]? = some t ∧ t.seq_num < seq0 ∧
        (∀ u ∈ l, t.seq_num ≤ u.seq_num) ∧
        ∀ k', k' < k → ∀ u, l[k']? = some u → t.seq_num < u.seq_num := by
  induction l generalizing i idx0 seq0 with
  | nil => left; simp [oldest_scan]
  | cons s rest ih =>
    by_cases h : s.seq_num < seq0
    · simp only [oldest_scan, h, if_true]
      right
      rcases ih (i + 1) i s.seq_num with ⟨hr, hall⟩ | ⟨k, t, hr, ht, hlt, hmin, hfirst⟩
      · refine ⟨0, s, by simpa using hr, by simp, h, ?_, by intro k' hk'; omega⟩
        intro u hu
        rcases List.mem_cons.mp hu with rfl | hu
        · exact le_refl _
        · exact hall u hu
      · refine ⟨k + 1, t, by omega, by simpa using ht, by omega, ?_, ?_⟩
        · intro u hu
          rcases List.mem_cons.mp hu with rfl | hu
          · omega
          · exact hmin u hu
        · intro k' hk' u hu
          cases k' with
          | zero =>
            simp at hu
            subst hu
            exact hlt
          | succ k' => exact hfirst k' (by omega) u (by simpa using hu)
    · simp only [oldest_scan, h, if_false]
      rcases ih (i + 1) idx0 seq0 with ⟨hr, hall⟩ | ⟨k, t, hr, ht, hlt, hmin, hfirst⟩
      · left
        refine ⟨hr, ?_⟩
        intro u hu
        rcases List.mem_cons.mp hu with rfl | hu
        · omega
        · exact hall u hu
      · right
        refine ⟨k + 1, t, by omega, by simpa using ht, hlt, ?_, ?_⟩
        · intro u hu
          rcases List.mem_cons.mp hu with rfl | hu
          · omega
          · exact hmin u hu
        · intro k' hk' u hu
          cases k' with
          | zero =>
            simp at hu
            subst hu
            omega
          | succ k' => exact hfirst k' (by omega) u (by simpa using hu)

/-- The slot chosen by `tinybft_init_agreement_slot` on a non-empty window of
`uint32_t` sequence numbers is the lowest-indexed slot of smallest sequence number. -/
theorem oldest_scan_top (l : List tinybft_agreement_slot_t) (hne : l ≠ [])
    (hb : ∀ s ∈ l, s.seq_num ≤ UINT32_MAX) :
    ∃ t, l[oldest_scan l 0 0 UINT32_MAX]? = some t ∧
      (∀ u ∈ l, t.seq_num ≤ u.seq_num) ∧
      ∀ k, k < oldest_scan l 0 0 UINT32_MAX → ∀ u, l[k]? = some u → t.seq_num < u.seq_num := by
  rcases oldest_scan_spec l 0 0 UINT32_MAX with ⟨hr, hall⟩ | ⟨k, t, hr, ht, -, hmin, hfirst⟩
  · cases l with
    | nil => exact absurd rfl hne
    | cons s rest =>
      refine ⟨s, by simp [hr], ?_, by intro k hk; omega⟩
      intro u hu
      have h1 := hb s (List.mem_cons_self _ _)
      have h2 := hall u hu
      omega
  · have hk : oldest_scan l 0 0 UINT32_MAX = k := by omega
    rw [hk]
    exact ⟨t, ht, hmin, hfirst⟩


/-! ## Lemmas on the window as a multiset of sequence numbers -/

theorem set_perm_cons_eraseIdx {α : Type} (l : List α) (r : Nat) (x : α) (h : r < l.length) :
    (l.set r x).Perm (x :: l.eraseIdx r) := by
  induction l generalizing r with
  | nil => simp at h
  | cons b l ih =>
    cases r with
    | zero => simp
    | succ r =>
      have hr : r < l.length := by simpa using h
      simp only [List.set_cons_succ, List.eraseIdx_cons_succ]
      exact ((ih r hr).cons b).trans (List.Perm.swap x b _)

theorem perm_cons_eraseIdx {α : Type} (l : List α) (r : Nat) (a : α) (h : l[r]? = some a) :
    l.Perm (a :: l.eraseIdx r) := by
  induction l generalizing r with
  | nil => simp at h
  | cons b l ih =>
    cases r with
    | zero =>
      simp at h
      subst h
      simp
    | succ r =>
      have hr : l[r]? = some a := by simpa using h
      simp only [List.eraseIdx_cons_succ]
      exact ((ih r hr).cons b).trans (List.Perm.swap a b _)

/-- One call of `tinybft_init_agreement_slot` on a window whose sequence numbers are,
as a multiset, `a :: L` with `a` a lower bound of `L`: afterwards they are `L ++ [seq]`. -/
theorem resident_init_perm (cfg : Config) (seq : Nat) (m : Memory) (a : Nat) (L : List Nat)
    (hperm : (resident_seq_nums m).Perm (a :: L))
    (hmin : ∀ x ∈ L, a ≤ x)
    (hb : ∀ x ∈ a :: L, x ≤ UINT32_MAX) :
    (resident_seq_nums (tinybft_init_agreement_slot cfg seq m).2).Perm (L ++ [seq]) := by
  have hne : m.agreement_region.slots ≠ [] := by
    intro h
    have h0 : resident_seq_nums m = [] := by simp [resident_seq_nums, h]
    rw [h0] at hperm
    exact List.cons_ne_nil _ _ (List.Perm.nil_eq hperm).symm
  have hbs : ∀ s ∈ m.agreement_region.slots, s.seq_num ≤ UINT32_MAX := by
    intro s hs
    apply hb
    apply hperm.subset
    exact List.mem_map.mpr ⟨s, hs, rfl⟩
  obtain ⟨t, ht, htmin, -⟩ := oldest_scan_top m.agreement_region.slots hne hbs
  have hlt : oldest_scan m.agreement_region.slots 0 0 UINT32_MAX <
      m.agreement_region.slots.length := (List.getElem?_eq_some.mp ht).1
  have hta : t.seq_num = a := by
    have ht_mem : t ∈ m.agreement_region.slots := by
      obtain ⟨h, he⟩ := List.getElem?_eq_some.mp ht
      exact he ▸ List.getElem_mem h
    have h1 : t.seq_num ∈ a :: L := hperm.subset (List.mem_map.mpr ⟨t, ht_mem, rfl⟩)
    have h2 : a ∈ resident_seq_nums m := hperm.symm.subset (List.mem_cons_self _ _)
    obtain ⟨u, hu, hua⟩ := List.mem_map.mp h2
    have h3 := htmin u hu
    rcases List.mem_cons.mp h1 with h | h
    · exact h
    · have := hmin _ h
      omega
  have hres : (resident_seq_nums m)[oldest_scan m.agreement_region.slots 0 0 UINT32_MAX]? =
      some a := by
    simp [resident_seq_nums, ht, hta]
  have hrest : ((resident_seq_nums m).eraseIdx
      (oldest_scan m.agreement_region.slots 0 0 UINT32_MAX)).Perm L :=
    ((perm_cons_eraseIdx _ _ _ hres).symm.trans hperm).cons_inv
  have hset : resident_seq_nums (tinybft_init_agreement_slot cfg seq m).2 =
      (resident_seq_nums m).set (oldest_scan m.agreement_region.slots 0 0 UINT32_MAX) seq := by
    simp [resident_seq_nums, tinybft_init_agreement_slot, List.map_set]
  rw [hset]
  have hlt' : oldest_scan m.agreement_region.slots 0 0 UINT32_MAX <
      (resident_seq_nums m).length := by simpa [resident_seq_nums] using hlt
  exact ((set_perm_cons_eraseIdx _ _ seq hlt').trans (hrest.cons seq)).trans
    (List.perm_append_singleton seq L).symm

/-- A run of calls on a window whose sequence numbers are, as a multiset, the sorted
list `L`, with the calls non-decreasing and not below `L`: the window ends up holding
the last `L.length` entries of `L ++ calls`. -/
theorem resident_init_many_perm (cfg : Config) (calls : List Nat) :
    ∀ (m : Memory) (L : List Nat),
      (resident_seq_nums m).Perm L →
      (L ++ calls).Pairwise (fun a b => a ≤ b) →
      (∀ x ∈ L ++ calls, x ≤ UINT32_MAX) →
      (resident_seq_nums (init_many cfg calls m)).Perm ((L ++ calls).drop calls.length) := by
  induction calls with
  | nil =>
    intro m L hperm _ _
    simpa [init_many] using hperm
  | cons c rest ih =>
    intro m L hperm hsorted hb
    cases L with
    | nil =>
      have hnil : m.agreement_region.slots = [] := by
        have := List.Perm.eq_nil hperm
        simpa [resident_seq_nums] using this
      have hperm' : (resident_seq_nums (tinybft_init_agreement_slot cfg c m).2).Perm [] := by
        simp [resident_seq_nums, tinybft_init_agreement_slot, hnil]
      have hs' : ([] ++ rest).Pairwise (fun a b => a ≤ b) := by
        simp only [List.nil_append] at hsorted ⊢
        exact (List.pairwise_cons.mp hsorted).2
      have hb' : ∀ x ∈ [] ++ rest, x ≤ UINT32_MAX := by
        intro x hx
        exact hb x (by simp at hx ⊢; exact Or.inr hx)
      have := ih (tinybft_init_agreement_slot cfg c m).2 [] hperm' hs' hb'
      simpa [init_many] using this
    | cons a L =>
      have hsa : ∀ x ∈ L ++ c :: rest, a ≤ x := by
        have := (List.pairwise_cons.mp (by simpa using hsorted :
          (a :: (L ++ c :: rest)).Pairwise (fun a b => a ≤ b))).1
        exact this
      have hperm' := resident_init_perm cfg c m a L hperm
        (fun x hx => hsa x (List.mem_append_left _ hx))
        (fun x hx => hb x (List.mem_append_left _ hx))
      have hs' : ((L ++ [c]) ++ rest).Pairwise (fun a b => a ≤ b) := by
        have := (List.pairwise_cons.mp (by simpa using hsorted :
          (a :: (L ++ c :: rest)).Pairwise (fun a b => a ≤ b))).2
        simpa using this
      have hb' : ∀ x ∈ (L ++ [c]) ++ rest, x ≤ UINT32_MAX := by
        intro x hx
        apply hb
        simp only [List.append_assoc, List.singleton_append, List.cons_append,
          List.mem_cons] at hx ⊢
        exact Or.inr hx
      have := ih (tinybft_init_agreement_slot cfg c m).2 (L ++ [c]) hperm' hs' hb'
      simpa [init_many] using this

/-- On the zeroed memory, a non-decreasing run of `uint32_t` calls leaves the window
holding the last `TINYBFT_WINDOW_SIZE` entries of the history that starts with
`TINYBFT_WINDOW_SIZE` zeros. -/
theorem resident_fresh_perm (cfg : Config) (m0 : Memory) (calls : List Nat)
    (hsorted : calls.Pairwise (fun a b => a ≤ b))
    (hb : ∀ x ∈ calls, x ≤ UINT32_MAX) :
    (resident_seq_nums (init_many cfg calls (tinybft_memory_init cfg m0))).Perm
      (List.replicate (cfg.TINYBFT_WINDOW_SIZE - calls.length) 0 ++
        calls.drop (calls.length - cfg.TINYBFT_WINDOW_SIZE)) := by
  have h0 : resident_seq_nums (tinybft_memory_init cfg m0) =
      List.replicate cfg.TINYBFT_WINDOW_SIZE 0 := by
    simp [resident_seq_nums, tinybft_memory_init, zero_agreement_region, zero_agreement_slot]
  have hs : (List.replicate cfg.TINYBFT_WINDOW_SIZE 0 ++ calls).Pairwise (fun a b => a ≤ b) := by
    rw [List.pairwise_append]
    refine ⟨?_, hsorted, ?_⟩
    · rw [List.pairwise_replicate]
      exact Or.inr (le_refl 0)
    · intro a ha b _
      have := List.eq_of_mem_replicate ha
      omega
  have hb' : ∀ x ∈ List.replicate cfg.TINYBFT_WINDOW_SIZE 0 ++ calls, x ≤ UINT32_MAX := by
    intro x hx
    rcases List.mem_append.mp hx with h | h
    · have := List.eq_of_mem_replicate h
      omega
    · exact hb x h
  have := resident_init_many_perm cfg calls (tinybft_memory_init cfg m0)
    (List.replicate cfg.TINYBFT_WINDOW_SIZE 0) (by rw [h0]) hs hb'
  rw [List.drop_append_eq_append_drop] at this
  simpa using this

/-! ## Lemmas relating `find` and `init` -/

/-- The index chosen by `tinybft_init_agreement_slot` lies inside a non-empty window. -/
theorem oldest_scan_lt (l : List tinybft_agreement_slot_t) (hne : l ≠ []) :
    oldest_scan l 0 0 UINT32_MAX < l.length := by
  rcases oldest_scan_spec l 0 0 UINT32_MAX with ⟨hr, -⟩ | ⟨k, t, hr, ht, -, -, -⟩
  · rw [hr]
    exact List.length_pos.mpr hne
  · have := (List.getElem?_eq_some.mp ht).1
    omega

theorem find_of_onlyAt (seq idx : Nat) (m : Memory)
    (h : OnlyAt seq idx m.agreement_region.slots) :
    (tinybft_find_agreement_slot seq m).1 = some idx := by
  simp only [tinybft_find_agreement_slot]
  rw [find_agreement_scan_some]
  exact ⟨idx, by omega, h.1, fun k' hk' t ht => h.2 k' (by omega) t ht⟩

theorem onlyAt_after_init (cfg : Config) (seq : Nat) (m : Memory)
    (hne : m.agreement_region.slots ≠ [])
    (habs : (tinybft_find_agreement_slot seq m).1 = none) :
    OnlyAt seq (tinybft_init_agreement_slot cfg seq m).1
      (tinybft_init_agreement_slot cfg seq m).2.agreement_region.slots := by
  have hlt := oldest_scan_lt m.agreement_region.slots hne
  have hall := (find_agreement_scan_none seq m.agreement_region.slots 0).mp habs
  constructor
  · exact ⟨{ zero_agreement_slot cfg with seq_num := seq },
      by simp [tinybft_init_agreement_slot, hlt], rfl⟩
  · intro j hj t ht
    have hj' : oldest_scan m.agreement_region.slots 0 0 UINT32_MAX ≠ j := fun h => hj h.symm
    simp only [tinybft_init_agreement_slot] at ht
    rw [List.getElem?_set_ne hj'] at ht
    obtain ⟨h, he⟩ := List.getElem?_eq_some.mp ht
    exact hall t (he ▸ List.getElem_mem h)

theorem onlyAt_preserved (cfg : Config) (seq idx s : Nat) (m : Memory)
    (h : OnlyAt seq idx m.agreement_region.slots) (hs : s ≠ seq)
    (hidx : (tinybft_init_agreement_slot cfg s m).1 ≠ idx) :
    OnlyAt seq idx (tinybft_init_agreement_slot cfg s m).2.agreement_region.slots := by
  obtain ⟨⟨u, hu, hus⟩, hothers⟩ := h
  simp only [tinybft_init_agreement_slot] at hidx ⊢
  constructor
  · exact ⟨u, by rw [List.getElem?_set_ne hidx]; exact hu, hus⟩
  · intro j hj t ht
    by_cases hjr : oldest_scan m.agreement_region.slots 0 0 UINT32_MAX = j
    · subst hjr
      rw [List.getElem?_set] at ht
      split at ht
      · split at ht
        · simp only [Option.some.injEq] at ht
          subst ht
          exact hs
        · exact absurd ht (by simp)
      · exact absurd rfl ‹_›
    · rw [List.getElem?_set_ne hjr] at ht
      exact hothers j hj t ht

theorem onlyAt_init_many (cfg : Config) (seq idx : Nat) (others : List Nat) :
    ∀ m : Memory, OnlyAt seq idx m.agreement_region.slots →
      (∀ s ∈ others, s ≠ seq) →
      slot_survives cfg idx others m = true →
      OnlyAt seq idx (init_many cfg others m).agreement_region.slots := by
  induction others with
  | nil => intro m h _ _; exact h
  | cons s rest ih =>
    intro m h hother hkeep
    simp only [slot_survives, Bool.and_eq_true, decide_eq_true_eq] at hkeep
    exact ih _ (onlyAt_preserved cfg seq idx s m h (hother s (List.mem_cons_self _ _)) hkeep.1)
      (fun x hx => hother x (List.mem_cons_of_mem _ hx)) hkeep.2

theorem slot_survives_take (cfg : Config) (idx : Nat) (others : List Nat) :
    ∀ (m : Memory) (k : Nat), slot_survives cfg idx others m = true →
      slot_survives cfg idx (others.take k) m = true := by
  induction others with
  | nil => intro m k h; simpa using h
  | cons s rest ih =>
    intro m k h
    cases k with
    | zero => rfl
    | succ k =>
      simp only [slot_survives, Bool.and_eq_true, decide_eq_true_eq, List.take_succ_cons] at h ⊢
      exact ⟨h.1, ih _ k h.2⟩

/-- A slot that no call of a run selects keeps its content through the run. -/
theorem init_many_untouched (cfg : Config) (k : Nat) (calls : List Nat) :
    ∀ m : Memory, k ∉ init_indices cfg calls m →
      (init_many cfg calls m).agreement_region.slots[k]? = m.agreement_region.slots[k]? := by
  induction calls with
  | nil => intro m _; rfl
  | cons s rest ih =>
    intro m hk
    simp only [init_indices, List.mem_cons, not_or] at hk
    simp only [init_many]
    rw [ih _ hk.2]
    simp only [tinybft_init_agreement_slot] at hk ⊢
    exact List.getElem?_set_ne (fun h => hk.1 h.symm)

/-! ## Lemmas on the scratch pool -/

theorem alloc_scan_none (l : List Nat) (i : Nat) :
    alloc_scan l i = none ↔ ∀ u ∈ l, u ≠ 0 := by
  induction l generalizing i with
  | nil => simp [alloc_scan]
  | cons u rest ih =>
    by_cases h : u = 0
    · simp [alloc_scan, h]
    · simp [alloc_scan, h, ih]

theorem alloc_scan_some (l : List Nat) (i j : Nat) :
    alloc_scan l i = some j ↔
      ∃ k, j = i + k ∧ l[k]? = some 0 ∧ ∀ k', k' < k → ∀ u, l[k']? = some u → u ≠ 0 := by
  induction l generalizing i with
  | nil => simp [alloc_scan]
  | cons u rest ih =>
    by_cases h : u = 0
    · simp only [alloc_scan, h, if_true, Option.some.injEq]
      constructor
      · intro hj
        exact ⟨0, by omega, by simp, by intro k' hk'; omega⟩
      · rintro ⟨k, hk, -, hmin⟩
        cases k with
        | zero => omega
        | succ k => exact absurd rfl (hmin 0 (by omega) 0 (by simp))
    · simp only [alloc_scan, h, if_false, ih]
      constructor
      · rintro ⟨k, hk, ht, hmin⟩
        refine ⟨k + 1, by omega, by simpa using ht, ?_⟩
        intro k' hk' v hv
        cases k' with
        | zero =>
          simp at hv
          subst hv
          exact h
        | succ k' => exact hmin k' (by omega) v (by simpa using hv)
      · rintro ⟨k, hk, ht, hmin⟩
        cases k with
        | zero =>
          simp at ht
          exact absurd ht h
        | succ k =>
          refine ⟨k, by omega, by simpa using ht, ?_⟩
          intro k' hk' v hv
          exact hmin (k' + 1) (by omega) v (by simpa using hv)

theorem move_scan_none (cfg : Config) (scratch_ptr : Nat) (l : List (List Nat)) (i : Nat) :
    move_scan cfg scratch_ptr l i = none ↔
      ∀ k, k < l.length → buffer_addr cfg (i + k) ≠ scratch_ptr := by
  induction l generalizing i with
  | nil => simp [move_scan]
  | cons b rest ih =>
    by_cases h : buffer_addr cfg i = scratch_ptr
    · simp only [move_scan, h, if_true]
      constructor
      · intro hc
        exact absurd hc (by simp)
      · intro hall
        exact absurd h (hall 0 (by simp))
    · simp only [move_scan, h, if_false, ih]
      constructor
      · intro hall k hk
        cases k with
        | zero => simpa using h
        | succ k =>
          have := hall k (by simpa using hk)
          rwa [show i + (k + 1) = i + 1 + k by omega]
      · intro hall k hk
        have := hall (k + 1) (by simpa using hk)
        rwa [show i + (k + 1) = i + 1 + k by omega] at this

theorem move_scan_some (cfg : Config) (scratch_ptr : Nat) (l : List (List Nat)) (i j : Nat) :
    move_scan cfg scratch_ptr l i = some j →
      i ≤ j ∧ j < i + l.length ∧ buffer_addr cfg j = scratch_ptr := by
  induction l generalizing i with
  | nil => simp [move_scan]
  | cons b rest ih =>
    by_cases h : buffer_addr cfg i = scratch_ptr
    · simp only [move_scan, h, if_true, Option.some.injEq]
      intro hj
      subst hj
      exact ⟨le_refl _, by simp, h⟩
    · simp only [move_scan, h, if_false]
      intro hj
      obtain ⟨h1, h2, h3⟩ := ih (i + 1) hj
      refine ⟨by omega, ?_, h3⟩
      simp only [List.length_cons]
      omega

/-- Distinct buffers have distinct addresses when a buffer is at least one byte long. -/
theorem buffer_addr_injective (cfg : Config) (hM : 0 < cfg.TINYBFT_MAX_MSG_SIZE) (i j : Nat)
    (h : buffer_addr cfg i = buffer_addr cfg j) : i = j := by
  simp only [buffer_addr, Nat.add_left_cancel_iff] at h
  exact Nat.eq_of_mul_eq_mul_right hM h

/-- A buffer whose used-length is nonzero is skipped by `tinybft_alloc_from_scratch`: the
call keeps its used-length and, when buffers are at least one byte long and the region is
not at address 0, does not return its address. -/
theorem alloc_skips_used (cfg : Config) (size : Nat) (m : Memory) (i u : Nat)
    (hM : 0 < cfg.TINYBFT_MAX_MSG_SIZE) (haddr : cfg.scratch_region_addr ≠ 0)
    (hu : m.scratch_region.buffer_used[i]? = some u) (hnz : u ≠ 0) :
    (tinybft_alloc_from_scratch cfg size m).1 ≠ buffer_addr cfg i ∧
    (tinybft_alloc_from_scratch cfg size m).2.scratch_region.buffer_used[i]? = some u := by
  have hnull : (0 : Nat) ≠ buffer_addr cfg i := by
    simp only [buffer_addr]
    omega
  by_cases hs : size > cfg.TINYBFT_MAX_MSG_SIZE
  · simp only [tinybft_alloc_from_scratch, hs, if_true]
    exact ⟨hnull, hu⟩
  · cases hscan : alloc_scan m.scratch_region.buffer_used 0 with
    | none =>
      simp only [tinybft_alloc_from_scratch, hs, if_false, hscan]
      exact ⟨hnull, hu⟩
    | some j =>
      obtain ⟨k, hk, hzero, -⟩ := (alloc_scan_some _ 0 j).mp hscan
      have hjk : j = k := by omega
      subst hjk
      have hji : j ≠ i := by
        intro h
        subst h
        rw [hzero] at hu
        simp only [Option.some.injEq] at hu
        exact hnz hu.symm
      simp only [tinybft_alloc_from_scratch, hs, if_false, hscan]
      refine ⟨fun h => hji (buffer_addr_injective cfg hM _ _ h), ?_⟩
      rw [List.getElem?_set_ne hji]
      exact hu

/-- Exclusive ownership for nonzero sizes: a buffer handed out for `0 < size` stays marked
through any run of later `tinybft_alloc_from_scratch` calls, and none of them returns it. -/
theorem alloc_many_skips_used (cfg : Config) (sizes : List Nat) :
    ∀ (m : Memory) (i u : Nat), 0 < cfg.TINYBFT_MAX_MSG_SIZE → cfg.scratch_region_addr ≠ 0 →
      m.scratch_region.buffer_used[i]? = some u → u ≠ 0 →
      (alloc_many cfg sizes m).scratch_region.buffer_used[i]? = some u ∧
      ∀ (k size : Nat), (tinybft_alloc_from_scratch cfg size
        (alloc_many cfg (sizes.take k) m)).1 ≠ buffer_addr cfg i := by
  induction sizes with
  | nil =>
    intro m i u hM haddr hu hnz
    refine ⟨hu, ?_⟩
    intro k size
    simp only [List.take_nil, alloc_many]
    exact (alloc_skips_used cfg size m i u hM haddr hu hnz).1
  | cons s rest ih =>
    intro m i u hM haddr hu hnz
    have h1 := alloc_skips_used cfg s m i u hM haddr hu hnz
    have h2 := ih (tinybft_alloc_from_scratch cfg s m).2 i u hM haddr h1.2 hnz
    refine ⟨h2.1, ?_⟩
    intro k size
    cases k with
    | zero =>
      simp only [List.take_zero, alloc_many]
      exact (alloc_skips_used cfg size m i u hM haddr hu hnz).1
    | succ k =>
      simp only [List.take_succ_cons, alloc_many]
      exact h2.2 k size

/-- The first loop of `tinybft_move_to_region` finds buffer `i` when it is handed the
start address of buffer `i` and buffers are at least one byte long. -/
theorem move_scan_buffer_addr (cfg : Config) (m : Memory) (i : Nat)
    (hM : 0 < cfg.TINYBFT_MAX_MSG_SIZE) (hi : i < m.scratch_region.buffers.length) :
    move_scan cfg (buffer_addr cfg i) m.scratch_region.buffers 0 = some i := by
  cases hscan : move_scan cfg (buffer_addr cfg i) m.scratch_region.buffers 0 with
  | none =>
    have := (move_scan_none cfg _ _ 0).mp hscan i hi
    simp at this
  | some j =>
    obtain ⟨-, -, hj⟩ := move_scan_some cfg _ _ 0 j hscan
    rw [buffer_addr_injective cfg hM j i hj]

/-- The memory after `tinybft_move_to_region` on the start address of a buffer in use:
only `buffer_used[i]` is written, whatever the destination tag and the size. -/
theorem move_to_region_in_use (cfg : Config) (dst_region size : Nat) (m : Memory) (i u : Nat)
    (hM : 0 < cfg.TINYBFT_MAX_MSG_SIZE) (hi : i < m.scratch_region.buffers.length)
    (hu : m.scratch_region.buffer_used[i]? = some u) (hnz : u ≠ 0) :
    tinybft_move_to_region cfg dst_region (buffer_addr cfg i) size m =
      { m with scratch_region :=
          { m.scratch_region with buffer_used := m.scratch_region.buffer_used.set i 0 } } := by
  have hscan := move_scan_buffer_addr cfg m i hM hi
  have hget : ¬ m.scratch_region.buffer_used.getD i 0 = 0 := by
    simp [List.getD_eq_getElem?_getD, hu, hnz]
  simp only [tinybft_move_to_region, hscan, hget, if_false, ite_self]

/-! ## Lemmas on the bytes of zeroed regions -/

theorem zero_matrix_flatten_zero (rows cols b : Nat) (h : b ∈ (zero_matrix rows cols).flatten) :
    b = 0 := by
  simp only [zero_matrix, zero_bytes, List.mem_flatten] at h
  obtain ⟨row, hrow, hb⟩ := h
  rw [List.eq_of_mem_replicate hrow] at hb
  exact List.eq_of_mem_replicate hb

theorem agreement_region_bytes_zero (cfg : Config) (b : Nat)
    (h : b ∈ agreement_region_bytes (zero_agreement_region cfg)) : b = 0 := by
  simp only [agreement_region_bytes, zero_agreement_region, List.mem_flatten, List.mem_map] at h
  obtain ⟨l, ⟨s, hs, hl⟩, hb⟩ := h
  rw [List.eq_of_mem_replicate hs] at hl
  subst hl
  simp only [zero_agreement_slot, zero_prepare_certificate, zero_commit_certificate,
    List.mem_append] at hb
  rcases hb with (hb | hb) | hb
  · exact List.eq_of_mem_replicate hb
  · exact zero_matrix_flatten_zero _ _ b hb
  · exact zero_matrix_flatten_zero _ _ b hb

theorem checkpoint_region_bytes_zero (cfg : Config) (b : Nat)
    (h : b ∈ checkpoint_region_bytes (zero_checkpoint_region cfg)) : b = 0 := by
  simp only [checkpoint_region_bytes, zero_checkpoint_region, List.mem_append, List.mem_flatten,
    List.mem_map] at h
  rcases h with ⟨l, ⟨c, hc, hl⟩, hb⟩ | hb
  · rw [List.eq_of_mem_replicate hc] at hl
    subst hl
    exact zero_matrix_flatten_zero _ _ b hb
  · exact zero_matrix_flatten_zero _ _ b (List.mem_flatten.mpr hb)

theorem event_region_bytes_zero (cfg : Config) (b : Nat)
    (h : b ∈ event_region_bytes (zero_event_region cfg)) : b = 0 := by
  simp only [event_region_bytes, zero_event_region, List.mem_append] at h
  rcases h with ((hb | hb) | hb) | hb <;> exact zero_matrix_flatten_zero _ _ b hb

/-! ## Lemmas on the checkpoint store -/

theorem find_checkpoint_scan_none (seq_num : Nat) (l : List tinybft_checkpoint_certificate_t)
    (i : Nat) :
    find_checkpoint_scan seq_num l i = none ↔ ∀ c ∈ l, c.seq_num ≠ seq_num := by
  induction l generalizing i with
  | nil => simp [find_checkpoint_scan]
  | cons c rest ih =>
    by_cases h : c.seq_num = seq_num
    · simp [find_checkpoint_scan, h]
    · simp [find_checkpoint_scan, h, ih]

theorem find_checkpoint_scan_some (seq_num : Nat) (l : List tinybft_checkpoint_certificate_t)
    (i j : Nat) :
    find_checkpoint_scan seq_num l i = some j ↔
      ∃ k, j = i + k ∧ (∃ c, l[k]? = some c ∧ c.seq_num = seq_num) ∧
        ∀ k', k' < k → ∀ d, l[k']? = some d → d.seq_num ≠ seq_num := by
  induction l generalizing i with
  | nil => simp [find_checkpoint_scan]
  | cons c rest ih =>
    by_cases h : c.seq_num = seq_num
    · simp only [find_checkpoint_scan, h, if_true, Option.some.injEq]
      constructor
      · intro hj
        exact ⟨0, by omega, ⟨c, by simp, h⟩, by intro k' hk'; omega⟩
      · rintro ⟨k, hk, -, hmin⟩
        cases k with
        | zero => omega
        | succ k => exact absurd h (hmin 0 (by omega) c (by simp))
    · simp only [find_checkpoint_scan, h, if_false, ih]
      constructor
      · rintro ⟨k, hk, ⟨d, hd, hds⟩, hmin⟩
        refine ⟨k + 1, by omega, ⟨d, by simpa using hd, hds⟩, ?_⟩
        intro k' hk' e he
        cases k' with
        | zero =>
          simp at he
          subst he
          exact h
        | succ k' => exact hmin k' (by omega) e (by simpa using he)
      · rintro ⟨k, hk, ⟨d, hd, hds⟩, hmin⟩
        cases k with
        | zero =>
          simp at hd
          subst hd
          exact absurd hds h
        | succ k =>
          refine ⟨k, by omega, ⟨d, by simpa using hd, hds⟩, ?_⟩
          intro k' hk' e he
          exact hmin (k' + 1) (by omega) e (by simpa using he)

/-- What the second loop of `tinybft_find_checkpoint_cert` computes: either no invalid
certificate is below the running `oldest_seq` and the running index is kept, or the result
is the lowest-indexed certificate of smallest sequence number among the invalid ones. -/
theorem oldest_invalid_scan_spec (l : List tinybft_checkpoint_certificate_t)
    (i idx0 seq0 : Nat) :
    (oldest_invalid_scan l i idx0 seq0 = idx0 ∧
        ∀ c ∈ l, c.valid = false → seq0 ≤ c.seq_num) ∨
      ∃ k t, oldest_invalid_scan l i idx0 seq0 = i + k ∧ l[k]? = some t ∧ t.valid = false ∧
        t.seq_num < seq0 ∧
        (∀ u ∈ l, u.valid = false → t.seq_num ≤ u.seq_num) ∧
        ∀ k', k' < k → ∀ u, l[k']? = some u → u.valid = false → t.seq_num < u.seq_num := by
  induction l generalizing i idx0 seq0 with
  | nil => left; simp [oldest_invalid_scan]
  | cons c rest ih =>
    by_cases h : c.seq_num < seq0 ∧ c.valid = false
    · simp only [oldest_invalid_scan, h, and_self, if_true]
      right
      rcases ih (i + 1) i c.seq_num with ⟨hr, hall⟩ | ⟨k, t, hr, ht, htv, hlt, hmin, hfirst⟩
      · refine ⟨0, c, by simpa using hr, by simp, h.2, h.1, ?_, by intro k' hk'; omega⟩
        intro u hu huv
        rcases List.mem_cons.mp hu with rfl | hu
        · exact le_refl _
        · exact hall u hu huv
      · refine ⟨k + 1, t, by omega, by simpa using ht, htv, by omega, ?_, ?_⟩
        · intro u hu huv
          rcases List.mem_cons.mp hu with rfl | hu
          · omega
          · exact hmin u hu huv
        · intro k' hk' u hu huv
          cases k' with
          | zero =>
            simp at hu
            subst hu
            exact hlt
          | succ k' => exact hfirst k' (by omega) u (by simpa using hu) huv
    · simp only [oldest_invalid_scan, h, if_false]
      have hc : c.valid = false → seq0 ≤ c.seq_num := by
        intro hv
        by_contra hlt
        exact h ⟨by omega, hv⟩
      rcases ih (i + 1) idx0 seq0 with ⟨hr, hall⟩ | ⟨k, t, hr, ht, htv, hlt, hmin, hfirst⟩
      · left
        refine ⟨hr, ?_⟩
        intro u hu huv
        rcases List.mem_cons.mp hu with rfl | hu
        · exact hc huv
        · exact hall u hu huv
      · right
        refine ⟨k + 1, t, by omega, by simpa using ht, htv, hlt, ?_, ?_⟩
        · intro u hu huv
          rcases List.mem_cons.mp hu with rfl | hu
          · have := hc huv
            omega
          · exact hmin u hu huv
        · intro k' hk' u hu huv
          cases k' with
          | zero =>
            simp at hu
            subst hu
            have := hc huv
            omega
          | succ k' => exact hfirst k' (by omega) u (by simpa using hu) huv

/-- The index chosen by the second loop of `tinybft_find_checkpoint_cert` lies inside a
non-empty certificate array. -/
theorem oldest_invalid_scan_lt (l : List tinybft_checkpoint_certificate_t) (hne : l ≠ []) :
    oldest_invalid_scan l 0 0 UINT32_MAX < l.length := by
  rcases oldest_invalid_scan_spec l 0 0 UINT32_MAX with ⟨hr, -⟩ | ⟨k, t, hr, ht, -, -, -, -⟩
  · rw [hr]
    exact List.length_pos.mpr hne
  · have := (List.getElem?_eq_some.mp ht).1
    omega

/-- The call on a sequence number that some certificate carries: the first loop returns
and nothing is written. -/
theorem find_checkpoint_cert_present (cfg : Config) (seq : Nat) (m : Memory) (i : Nat)
    (h : find_checkpoint_scan seq m.checkpoint_region.certificates 0 = some i) :
    tinybft_find_checkpoint_cert cfg seq m = (i, m) := by
  simp only [tinybft_find_checkpoint_cert, h]

/-- The call on a sequence number that no certificate carries: the certificate chosen by
the second loop is overwritten with the zero certificate stamped with the number. -/
theorem find_checkpoint_cert_absent (cfg : Config) (seq : Nat) (m : Memory)
    (h : find_checkpoint_scan seq m.checkpoint_region.certificates 0 = none) :
    tinybft_find_checkpoint_cert cfg seq m =
      (oldest_invalid_scan m.checkpoint_region.certificates 0 0 UINT32_MAX,
        { m with checkpoint_region :=
          { m.checkpoint_region with
            certificates := m.checkpoint_region.certificates.set
              (oldest_invalid_scan m.checkpoint_region.certificates 0 0 UINT32_MAX)
              { zero_checkpoint_certificate cfg with seq_num := seq } } }) := by
  simp only [tinybft_find_checkpoint_cert, h]

/-- After any call of `tinybft_find_checkpoint_cert(seq)` on a non-empty certificate array
the first loop finds `seq` at the index the call returned. -/
theorem find_checkpoint_scan_after (cfg : Config) (seq : Nat) (m : Memory)
    (hne : m.checkpoint_region.certificates ≠ []) :
    find_checkpoint_scan seq
        (tinybft_find_checkpoint_cert cfg seq m).2.checkpoint_region.certificates 0 =
      some (tinybft_find_checkpoint_cert cfg seq m).1 := by
  cases hscan : find_checkpoint_scan seq m.checkpoint_region.certificates 0 with
  | some i =>
    rw [find_checkpoint_cert_present cfg seq m i hscan]
    exact hscan
  | none =>
    rw [find_checkpoint_cert_absent cfg seq m hscan]
    have hlt := oldest_invalid_scan_lt m.checkpoint_region.certificates hne
    have hall := (find_checkpoint_scan_none seq _ 0).mp hscan
    rw [find_checkpoint_scan_some]
    refine ⟨oldest_invalid_scan m.checkpoint_region.certificates 0 0 UINT32_MAX, by omega,
      ⟨{ zero_checkpoint_certificate cfg with seq_num := seq }, by simp [hlt], rfl⟩, ?_⟩
    intro k' hk' d hd
    simp only at hd
    rw [List.getElem?_set_ne (by omega)] at hd
    obtain ⟨h, he⟩ := List.getElem?_eq_some.mp hd
    exact hall d (he ▸ List.getElem_mem h)

/-- Reuse prefers invalid certificates below the sentinel: when no certificate carries
`seq` and some certificate marked invalid has a sequence number below `UINT32_MAX`, the
certificate that `tinybft_find_checkpoint_cert(seq)` reuses is marked invalid, has the
smallest sequence number among the invalid ones and the lowest index among those. -/
theorem find_checkpoint_cert_prefers_invalid (cfg : Config) (seq : Nat) (m : Memory)
    (habs : ∀ c ∈ m.checkpoint_region.certificates, c.seq_num ≠ seq)
    (hinv : ∃ c ∈ m.checkpoint_region.certificates, c.valid = false ∧ c.seq_num < UINT32_MAX) :
    ∃ t, m.checkpoint_region.certificates[(tinybft_find_checkpoint_cert cfg seq m).1]? = some t ∧
      t.valid = false ∧
      (∀ u ∈ m.checkpoint_region.certificates, u.valid = false → t.seq_num ≤ u.seq_num) ∧
      ∀ k, k < (tinybft_find_checkpoint_cert cfg seq m).1 →
        ∀ u, m.checkpoint_region.certificates[k]? = some u → u.valid = false →
          t.seq_num < u.seq_num := by
  have hscan := (find_checkpoint_scan_none seq _ 0).mpr habs
  rw [find_checkpoint_cert_absent cfg seq m hscan]
  rcases oldest_invalid_scan_spec m.checkpoint_region.certificates 0 0 UINT32_MAX with
    ⟨-, hall⟩ | ⟨k, t, hr, ht, htv, -, hmin, hfirst⟩
  · obtain ⟨c, hc, hcv, hclt⟩ := hinv
    have := hall c hc hcv
    omega
  · have hk : oldest_invalid_scan m.checkpoint_region.certificates 0 0 UINT32_MAX = k := by omega
    simp only [hk]
    exact ⟨t, ht, htv, hmin, hfirst⟩

/-! ## Lemmas on the certificate aggregator -/

/-- The count never decreases under a vote. -/
theorem append_vote_count_le (cfg : Config) (sender : Nat) (payload : List Nat)
    (votes : List (List Nat)) (voted : List Nat) (count : Nat) :
    count ≤ (append_vote cfg sender payload votes voted count).2.2 := by
  simp only [append_vote]
  split_ifs <;> simp

/-- The vote array keeps its length under a vote. -/
theorem append_vote_length (cfg : Config) (sender : Nat) (payload : List Nat)
    (votes : List (List Nat)) (voted : List Nat) (count : Nat) :
    (append_vote cfg sender payload votes voted count).1.length = votes.length := by
  simp only [append_vote]
  split_ifs <;> simp

/-- A vote of an in-range sender stores its payload at the sender's position and leaves
the other positions. -/
theorem append_vote_store (cfg : Config) (sender : Nat) (payload : List Nat)
    (votes : List (List Nat)) (voted : List Nat) (count : Nat)
    (hsender : sender < cfg.TINYBFT_MAX_REPLICAS) (hlen : sender < votes.length) :
    (append_vote cfg sender payload votes voted count).1[sender]? = some payload ∧
    ∀ j : Nat, j ≠ sender →
      (append_vote cfg sender payload votes voted count).1[j]? = votes[j]? := by
  have h1 : (append_vote cfg sender payload votes voted count).1 = votes.set sender payload := by
    simp only [append_vote, hsender, if_true]
    split_ifs <;> rfl
  rw [h1]
  refine ⟨by simp [hlen], ?_⟩
  intro j hj
  exact List.getElem?_set_ne (fun h => hj h.symm)

/-- A vote of a sender that has already voted changes neither the count nor the senders
that have voted. -/
theorem append_vote_repeat (cfg : Config) (sender : Nat) (payload : List Nat)
    (votes : List (List Nat)) (voted : List Nat) (count : Nat) (h : sender ∈ voted) :
    (append_vote cfg sender payload votes voted count).2.2 = count ∧
    (append_vote cfg sender payload votes voted count).2.1 = voted := by
  simp only [append_vote, h, if_true]
  split_ifs <;> exact ⟨rfl, rfl⟩

/-- A first vote of an in-range sender raises the count by one. -/
theorem append_vote_first (cfg : Config) (sender : Nat) (payload : List Nat)
    (votes : List (List Nat)) (voted : List Nat) (count : Nat)
    (hsender : sender < cfg.TINYBFT_MAX_REPLICAS) (h : sender ∉ voted) :
    (append_vote cfg sender payload votes voted count).2.2 = count + 1 := by
  simp only [append_vote, hsender, h, if_true, if_false]

/-- After a vote of an in-range sender that sender has voted, and whoever had voted
before still has. -/
theorem append_vote_voted (cfg : Config) (sender : Nat) (payload : List Nat)
    (votes : List (List Nat)) (voted : List Nat) (count : Nat) :
    (sender < cfg.TINYBFT_MAX_REPLICAS →
      sender ∈ (append_vote cfg sender payload votes voted count).2.1) ∧
    ∀ s ∈ voted, s ∈ (append_vote cfg sender payload votes voted count).2.1 := by
  simp only [append_vote]
  constructor
  · intro hs
    simp only [hs, if_true]
    split_ifs with h
    · exact h
    · exact List.mem_cons_self _ _
  · intro s hs
    split_ifs
    · exact hs
    · exact List.mem_cons_of_mem _ hs
    · exact hs

/-- One vote keeps the invariant "the count is the number of distinct senders that have
voted": the senders afterwards are the earlier ones and, if in range, the new one. -/
theorem append_vote_invariant (cfg : Config) (sender : Nat) (payload : List Nat)
    (votes : List (List Nat)) (voted : List Nat) (count : Nat)
    (hcount : count = voted.toFinset.card) :
    (append_vote cfg sender payload votes voted count).2.2 =
      (append_vote cfg sender payload votes voted count).2.1.toFinset.card ∧
    (append_vote cfg sender payload votes voted count).2.1.toFinset =
      voted.toFinset ∪
        (if sender < cfg.TINYBFT_MAX_REPLICAS then {sender} else (∅ : Finset Nat)) := by
  by_cases hs : sender < cfg.TINYBFT_MAX_REPLICAS
  · by_cases hv : sender ∈ voted
    · simp only [append_vote, hs, hv, if_true]
      refine ⟨hcount, ?_⟩
      ext x
      simp only [Finset.mem_union, List.mem_toFinset, Finset.mem_singleton]
      constructor
      · exact fun h => Or.inl h
      · rintro (h | rfl)
        · exact h
        · exact hv
    · simp only [append_vote, hs, hv, if_true, if_false]
      constructor
      · rw [List.toFinset_cons, Finset.card_insert_of_not_mem (by simpa using hv), hcount]
      · ext x
        simp only [List.toFinset_cons, Finset.mem_insert, Finset.mem_union, List.mem_toFinset,
          Finset.mem_singleton]
        tauto
  · simp only [append_vote, hs, if_false]
    exact ⟨hcount, by simp⟩

/-- A run of votes keeps the invariant: the count becomes the number of distinct senders
among the earlier ones and the in-range senders of the run. -/
theorem append_votes_invariant (cfg : Config) (vs : List (Nat × List Nat)) :
    ∀ (votes : List (List Nat)) (voted : List Nat) (count : Nat),
      count = voted.toFinset.card →
      (append_votes cfg vs votes voted count).2.2 =
        (voted.toFinset ∪ (senders_in_range cfg vs).toFinset).card := by
  induction vs with
  | nil =>
    intro votes voted count hcount
    simp [append_votes, senders_in_range, hcount]
  | cons v rest ih =>
    intro votes voted count hcount
    obtain ⟨h1, h2⟩ := append_vote_invariant cfg v.1 v.2 votes voted count hcount
    simp only [append_votes]
    rw [ih _ _ _ h1, h2]
    congr 1
    ext x
    by_cases hv : v.1 < cfg.TINYBFT_MAX_REPLICAS
    · simp only [hv, if_true, senders_in_range, List.map_cons, List.filter_cons, decide_True,
        Finset.mem_union, List.mem_toFinset, Finset.mem_singleton, List.mem_cons]
      tauto
    · simp only [hv, if_false, senders_in_range, List.map_cons, List.filter_cons, decide_False,
        Finset.mem_union, List.mem_toFinset, Finset.not_mem_empty, or_false]
      simp

theorem append_prepare_votes_count (cfg : Config) (vs : List (Nat × List Nat)) :
    ∀ pv : prepare_votes,
      (append_prepare_votes cfg vs pv).cert.prepare_count =
        (append_votes cfg vs pv.cert.prepares pv.voted pv.cert.prepare_count).2.2 := by
  induction vs with
  | nil => intro pv; rfl
  | cons v rest ih =>
    intro pv
    simp only [append_prepare_votes, append_votes]
    rw [ih]
    rfl

theorem append_commit_votes_count (cfg : Config) (vs : List (Nat × List Nat)) :
    ∀ cv : commit_votes,
      (append_commit_votes cfg vs cv).cert.commit_count =
        (append_votes cfg vs cv.cert.commits cv.voted cv.cert.commit_count).2.2 := by
  induction vs with
  | nil => intro cv; rfl
  | cons v rest ih =>
    intro cv
    simp only [append_commit_votes, append_votes]
    rw [ih]
    rfl

/-- The in-range senders of a run are fewer than the replica count. -/
theorem senders_in_range_card_le (cfg : Config) (vs : List (Nat × List Nat)) :
    (senders_in_range cfg vs).toFinset.card ≤ cfg.TINYBFT_MAX_REPLICAS := by
  have hsub : (senders_in_range cfg vs).toFinset ⊆ Finset.range cfg.TINYBFT_MAX_REPLICAS := by
    intro x hx
    simp only [senders_in_range, List.mem_toFinset, List.mem_filter, decide_eq_true_eq] at hx
    exact Finset.mem_range.mpr hx.2
  simpa using Finset.card_le_card hsub

/-- On a prepare certificate with count 0 and no votes, the count after a run of votes is
the number of distinct in-range senders, at most the replica count. -/
theorem fresh_prepare_votes_count (cfg : Config) (vs : List (Nat × List Nat))
    (cert : tinybft_prepare_certificate_t) (h0 : cert.prepare_count = 0) :
    (append_prepare_votes cfg vs (no_prepare_votes cert)).cert.prepare_count =
      (senders_in_range cfg vs).toFinset.card ∧
    (append_prepare_votes cfg vs (no_prepare_votes cert)).cert.prepare_count ≤
      cfg.TINYBFT_MAX_REPLICAS := by
  have h := append_votes_invariant cfg vs cert.prepares [] cert.prepare_count (by simp [h0])
  have hc : (append_prepare_votes cfg vs (no_prepare_votes cert)).cert.prepare_count =
      (senders_in_range cfg vs).toFinset.card := by
    rw [append_prepare_votes_count]
    simpa [no_prepare_votes] using h
  exact ⟨hc, hc ▸ senders_in_range_card_le cfg vs⟩

/-- On a commit certificate with count 0 and no votes, the count after a run of votes is
the number of distinct in-range senders, at most the replica count. -/
theorem fresh_commit_votes_count (cfg : Config) (vs : List (Nat × List Nat))
    (cert : tinybft_commit_certificate_t) (h0 : cert.commit_count = 0) :
    (append_commit_votes cfg vs (no_commit_votes cert)).cert.commit_count =
      (senders_in_range cfg vs).toFinset.card ∧
    (append_commit_votes cfg vs (no_commit_votes cert)).cert.commit_count ≤
      cfg.TINYBFT_MAX_REPLICAS := by
  have h := append_votes_invariant cfg vs cert.commits [] cert.commit_count (by simp [h0])
  have hc : (append_commit_votes cfg vs (no_commit_votes cert)).cert.commit_count =
      (senders_in_range cfg vs).toFinset.card := by
    rw [append_commit_votes_count]
    simpa [no_commit_votes] using h
  exact ⟨hc, hc ▸ senders_in_range_card_le cfg vs⟩

/-! ## Lemmas on the demo's key-value store -/

/-- The loop of `update_kv_store` leaves through the update branch at the first used entry
that holds `key`. -/
theorem update_kv_scan_inl (key : List Char) (l : List kv_pair_t) (i : Nat) (e : Int) (j : Nat)
    (h : update_kv_scan key l i e = Sum.inl j) :
    ∃ k x, j = i + k ∧ l[k]? = some x ∧ x.used = true ∧ x.key = key ∧
      ∀ k', k' < k → ∀ y, l[k']? = some y → ¬ (y.used = true ∧ y.key = key) := by
  induction l generalizing i e with
  | nil => simp [update_kv_scan] at h
  | cons a rest ih =>
    by_cases hm : a.used = true ∧ a.key = key
    · simp only [update_kv_scan, hm, and_self, if_true, Sum.inl.injEq] at h
      exact ⟨0, a, by omega, by simp, hm.1, hm.2, by intro k' hk'; omega⟩
    · simp only [update_kv_scan, hm, if_false] at h
      have hrec : ∃ e', update_kv_scan key rest (i + 1) e' = Sum.inl j := by
        split_ifs at h
        · exact ⟨_, h⟩
        · exact ⟨_, h⟩
      obtain ⟨e', he'⟩ := hrec
      obtain ⟨k, x, hk, hx, hu, hkey, hfirst⟩ := ih (i + 1) e' he'
      refine ⟨k + 1, x, by omega, by simpa using hx, hu, hkey, ?_⟩
      intro k' hk' y hy
      cases k' with
      | zero =>
        simp at hy
        subst hy
        exact hm
      | succ k' => exact hfirst k' (by omega) y (by simpa using hy)

/-- When the loop of `update_kv_store` runs to its end, no used entry holds `key`, and the
final `empty_slot` is the one it started with if that was set, otherwise an unused entry
if there is one. -/
theorem update_kv_scan_inr (key : List Char) (l : List kv_pair_t) (i : Nat) (e e' : Int)
    (h : update_kv_scan key l i e = Sum.inr e') :
    (∀ y ∈ l, ¬ (y.used = true ∧ y.key = key)) ∧
    (0 ≤ e → e' = e) ∧
    (e < 0 → (e' = e ∧ ∀ y ∈ l, y.used = true) ∨
      ∃ k x, e' = ((i + k : Nat) : Int) ∧ l[k]? = some x ∧ x.used = false) := by
  induction l generalizing i e with
  | nil =>
    simp only [update_kv_scan, Sum.inr.injEq] at h
    refine ⟨by simp, fun _ => h.symm, fun _ => Or.inl ⟨h.symm, by simp⟩⟩
  | cons a rest ih =>
    by_cases hm : a.used = true ∧ a.key = key
    · simp [update_kv_scan, hm] at h
    · simp only [update_kv_scan, hm, if_false] at h
      by_cases hu : a.used = false ∧ e < 0
      · simp only [hu, and_self, if_true] at h
        obtain ⟨h1, h2, -⟩ := ih (i + 1) (i : Int) h
        refine ⟨?_, fun h0 => by omega, fun _ => Or.inr ⟨0, a, ?_, by simp, hu.1⟩⟩
        · intro y hy
          rcases List.mem_cons.mp hy with rfl | hy
          · exact hm
          · exact h1 y hy
        · rw [h2 (by omega)]
          rfl
      · simp only [hu, if_false] at h
        obtain ⟨h1, h2, h3⟩ := ih (i + 1) e h
        refine ⟨?_, h2, ?_⟩
        · intro y hy
          rcases List.mem_cons.mp hy with rfl | hy
          · exact hm
          · exact h1 y hy
        · intro hneg
          have ha : a.used = true := by
            cases hv : a.used with
            | true => rfl
            | false => exact absurd ⟨hv, hneg⟩ hu
          rcases h3 hneg with ⟨he, hall⟩ | ⟨k, x, hk, hx, hxu⟩
          · left
            refine ⟨he, ?_⟩
            intro y hy
            rcases List.mem_cons.mp hy with rfl | hy
            · exact ha
            · exact hall y hy
          · right
            refine ⟨k + 1, x, ?_, by simpa using hx, hxu⟩
            rw [hk]
            congr 1
            omega

/-- The GET loop returns the value of the first used entry that holds `key`. -/
theorem get_scan_first (key : List Char) (l : List kv_pair_t) (k : Nat) (x : kv_pair_t)
    (hx : l[k]? = some x) (hu : x.used = true) (hkey : x.key = key)
    (hfirst : ∀ k', k' < k → ∀ y, l[k']? = some y → ¬ (y.used = true ∧ y.key = key)) :
    get_scan key l = some x.value := by
  induction l generalizing k with
  | nil => simp at hx
  | cons a rest ih =>
    cases k with
    | zero =>
      simp at hx
      subst hx
      simp [get_scan, hu, hkey]
    | succ k =>
      have ha : ¬ (a.used = true ∧ a.key = key) := hfirst 0 (by omega) a (by simp)
      simp only [get_scan, ha, if_false]
      exact ih k (by simpa using hx)
        (fun k' hk' y hy => hfirst (k' + 1) (by omega) y (by simpa using hy))

/-- The GET loop finds nothing when no used entry holds `key`. -/
theorem get_scan_none (key : List Char) (l : List kv_pair_t)
    (h : ∀ y ∈ l, ¬ (y.used = true ∧ y.key = key)) : get_scan key l = none := by
  induction l with
  | nil => rfl
  | cons a rest ih =>
    have ha := h a (List.mem_cons_self _ _)
    simp only [get_scan, ha, if_false]
    exact ih (fun y hy => h y (List.mem_cons_of_mem _ hy))

/-- Overwriting an entry without changing its `used` flag keeps the number of used
entries. -/
theorem countP_used_set (l : List kv_pair_t) (i : Nat) (x y : kv_pair_t)
    (hx : l[i]? = some x) (hy : y.used = x.used) :
    (l.set i y).countP (fun e => e.used) = l.countP (fun e => e.used) := by
  induction l generalizing i with
  | nil => simp at hx
  | cons a rest ih =>
    cases i with
    | zero =>
      simp at hx
      subst hx
      simp [List.countP_cons, hy]
    | succ i =>
      simp only [List.set_cons_succ, List.countP_cons]
      rw [ih i (by simpa using hx)]

/-- PUT then GET on one store, for a key that fits the `key` buffer and a value that fits
the `value` buffer: if the store holds `key` or has an unused entry, the GET loop finds
`value` afterwards; updating a key the store holds keeps the number of used entries. -/
theorem update_kv_entries_get (key value : List Char) (kv_store : List kv_pair_t)
    (hklen : key.length ≤ MAX_KEY_SIZE - 1) (hvlen : value.length ≤ MAX_VALUE_SIZE - 1)
    (hroom : (∃ e ∈ kv_store, e.used = true ∧ e.key = key) ∨ ∃ e ∈ kv_store, e.used = false) :
    get_scan key (update_kv_entries key value kv_store) = some value ∧
    (update_kv_entries key value kv_store).length = kv_store.length ∧
    ((∃ e ∈ kv_store, e.used = true ∧ e.key = key) →
      (update_kv_entries key value kv_store).countP (fun e => e.used) =
        kv_store.countP (fun e => e.used)) := by
  have hkt : key.take (MAX_KEY_SIZE - 1) = key := List.take_of_length_le hklen
  have hv : value.take (MAX_VALUE_SIZE - 1) = value := List.take_of_length_le hvlen
  cases hscan : update_kv_scan key kv_store 0 (-1) with
  | inl j =>
    obtain ⟨k, x, hjk, hx, hu, hkey, hfirst⟩ := update_kv_scan_inl key kv_store 0 (-1) j hscan
    have hj : j = k := by omega
    subst hj
    have hlt : j < kv_store.length := (List.getElem?_eq_some.mp hx).1
    have hupd : update_kv_entries key value kv_store =
        kv_store.set j { x with value := value } := by
      simp only [update_kv_entries, hscan, hx, hv]
    rw [hupd]
    refine ⟨?_, by simp, fun _ => countP_used_set kv_store j x _ hx rfl⟩
    refine get_scan_first key _ j { x with value := value } (by simp [hlt]) hu hkey ?_
    intro k' hk' y hy
    rw [List.getElem?_set_ne (by omega)] at hy
    exact hfirst k' hk' y hy
  | inr e' =>
    obtain ⟨hnone, -, h3⟩ := update_kv_scan_inr key kv_store 0 (-1) e' hscan
    have hnomatch : ¬ ∃ e ∈ kv_store, e.used = true ∧ e.key = key := by
      rintro ⟨e, he, hm⟩
      exact hnone e he hm
    rcases h3 (by omega) with ⟨-, hall⟩ | ⟨k, x, hk, hx, hxu⟩
    · rcases hroom with h | ⟨e, he, hef⟩
      · exact absurd h hnomatch
      · rw [hall e he] at hef
        exact absurd hef (by simp)
    · have hlt : k < kv_store.length := (List.getElem?_eq_some.mp hx).1
      have he' : e' = (k : Int) := by
        rw [hk]
        congr 1
        omega
      have hupd : update_kv_entries key value kv_store =
          kv_store.set k { key := key, value := value, used := true } := by
        simp only [update_kv_entries, hscan, he', hkt, hv]
        simp
      rw [hupd]
      refine ⟨?_, by simp, fun h => absurd h hnomatch⟩
      refine get_scan_first key _ k { key := key, value := value, used := true }
        (by simp [hlt]) rfl rfl ?_
      intro k' hk' y hy
      rw [List.getElem?_set_ne (by omega)] at hy
      obtain ⟨h, heq⟩ := List.getElem?_eq_some.mp hy
      exact hnone y (heq ▸ List.getElem_mem h)

/-- PUT then GET, for a key of at most 31 characters and a value of at most 255: after
`update_kv_store(replica, key, value)` on a store that holds `key` or has an unused entry,
the GET lookup on that replica finds `value`; the other replicas are unchanged; updating
a key the store holds keeps the number of used entries. -/
theorem update_kv_store_then_get (replica_id : Nat) (key value : List Char) (d : DemoState)
    (r : replica_t) (hkey : key ≠ [])
    (hklen : key.length ≤ MAX_KEY_SIZE - 1) (hvlen : value.length ≤ MAX_VALUE_SIZE - 1)
    (hr : d.replicas[replica_id]? = some r)
    (hroom : (∃ e ∈ r.kv_store, e.used = true ∧ e.key = key) ∨
      ∃ e ∈ r.kv_store, e.used = false) :
    (execute_get_command key (update_kv_store replica_id key value d))[replica_id]? =
      some (some value) ∧
    (∀ j : Nat, j ≠ replica_id →
      (update_kv_store replica_id key value d).replicas[j]? = d.replicas[j]?) ∧
    (update_kv_store replica_id key value d).replicas.length = d.replicas.length ∧
    ((∃ e ∈ r.kv_store, e.used = true ∧ e.key = key) →
      used_entries (update_kv_store replica_id key value d) replica_id =
        used_entries d replica_id) := by
  obtain ⟨hget, -, hcount⟩ := update_kv_entries_get key value r.kv_store hklen hvlen hroom
  have hlt : replica_id < d.replicas.length := (List.getElem?_eq_some.mp hr).1
  have hupd : update_kv_store replica_id key value d =
      { d with
        replicas :=
          d.replicas.set replica_id { r with kv_store := update_kv_entries key value r.kv_store } } := by
    simp only [update_kv_store, hkey, if_false, hr]
  rw [hupd]
  refine ⟨?_, ?_, by simp, ?_⟩
  · simp [execute_get_command, hlt, hget]
  · intro j hj
    exact List.getElem?_set_ne (fun h => hj h.symm)
  · intro hex
    simp only [used_entries, hr]
    simp [hlt, hcount hex]

/-- C1. On a non-empty window of `uint32_t` sequence numbers,
`tinybft_init_agreement_slot(seq)` returns the lowest-indexed slot of smallest
sequence number; that slot becomes the all-zero slot stamped with `seq` (views 0,
counts 0, every payload byte 0); every other slot, the window length and the other
regions are unchanged. -/
theorem init_agreement_slot_reuses_smallest (cfg : Config) (seq : Nat) (m : Memory)
    (hne : m.agreement_region.slots ≠ [])
    (hb : ∀ s ∈ m.agreement_region.slots, s.seq_num ≤ UINT32_MAX) :
    (∃ t, m.agreement_region.slots[(tinybft_init_agreement_slot cfg seq m).1]? = some t ∧
      (∀ u ∈ m.agreement_region.slots, t.seq_num ≤ u.seq_num) ∧
      ∀ k, k < (tinybft_init_agreement_slot cfg seq m).1 →
        ∀ u, m.agreement_region.slots[k]? = some u → t.seq_num < u.seq_num) ∧
    (∃ s, (tinybft_init_agreement_slot cfg seq m).2.agreement_region.slots[
          (tinybft_init_agreement_slot cfg seq m).1]? = some s ∧
      s = { zero_agreement_slot cfg with seq_num := seq } ∧
      s.seq_num = seq ∧
      s.prepare_cert.view = 0 ∧ s.commit_cert.view = 0 ∧
      s.prepare_cert.prepare_count = 0 ∧ s.commit_cert.commit_count = 0 ∧
      (∀ b ∈ s.prepare_cert.pre_prepare, b = 0) ∧
      (∀ row ∈ s.prepare_cert.prepares, ∀ b ∈ row, b = 0) ∧
      (∀ row ∈ s.commit_cert.commits, ∀ b ∈ row, b = 0)) ∧
    (∀ k, k ≠ (tinybft_init_agreement_slot cfg seq m).1 →
      (tinybft_init_agreement_slot cfg seq m).2.agreement_region.slots[k]? =
        m.agreement_region.slots[k]?) ∧
    (tinybft_init_agreement_slot cfg seq m).2.agreement_region.slots.length =
      m.agreement_region.slots.length ∧
    (tinybft_init_agreement_slot cfg seq m).2.checkpoint_region = m.checkpoint_region ∧
    (tinybft_init_agreement_slot cfg seq m).2.event_region = m.event_region ∧
    (tinybft_init_agreement_slot cfg seq m).2.scratch_region = m.scratch_region ∧
    (tinybft_init_agreement_slot cfg seq m).2.using_nvm = m.using_nvm := by
  obtain ⟨t, ht, hmin, hfirst⟩ := oldest_scan_top m.agreement_region.slots hne hb
  have hlt : oldest_scan m.agreement_region.slots 0 0 UINT32_MAX <
      m.agreement_region.slots.length := by
    rcases List.getElem?_eq_some.mp ht with ⟨h, -⟩
    exact h
  refine ⟨⟨t, ht, hmin, hfirst⟩, ?_, ?_, ?_, rfl, rfl, rfl, rfl⟩
  · refine ⟨{ zero_agreement_slot cfg with seq_num := seq }, ?_, rfl, rfl, rfl, rfl, rfl, rfl,
      ?_, ?_, ?_⟩
    · simp [tinybft_init_agreement_slot, hlt]
    · intro b hb'
      exact List.eq_of_mem_replicate hb'
    · intro row hrow b hb'
      have := List.eq_of_mem_replicate hrow
      subst this
      exact List.eq_of_mem_replicate hb'
    · intro row hrow b hb'
      have := List.eq_of_mem_replicate hrow
      subst this
      exact List.eq_of_mem_replicate hb'
  · intro k hk
    have hk' : oldest_scan m.agreement_region.slots 0 0 UINT32_MAX ≠ k := fun h => hk h.symm
    simp only [tinybft_init_agreement_slot]
    exact List.getElem?_set_ne hk'
  · simp [tinybft_init_agreement_slot]

/-- Witness for C1: the window `[7, 0, 0, 0]` reached by one call from the zeroed memory
of the default build; the next call reuses slot 1. -/
theorem init_agreement_slot_reuses_smallest_witness :
    (tinybft_init_agreement_slot exampleConfig 7 (startup exampleConfig)).2.agreement_region.slots
        ≠ [] ∧
    (tinybft_init_agreement_slot exampleConfig 9
      (tinybft_init_agreement_slot exampleConfig 7 (startup exampleConfig)).2).1 = 1 ∧
    ∃ t, (tinybft_init_agreement_slot exampleConfig 7
          (startup exampleConfig)).2.agreement_region.slots[
        (tinybft_init_agreement_slot exampleConfig 9
          (tinybft_init_agreement_slot exampleConfig 7 (startup exampleConfig)).2).1]? = some t ∧
      ∀ u ∈ (tinybft_init_agreement_slot exampleConfig 7
          (startup exampleConfig)).2.agreement_region.slots, t.seq_num ≤ u.seq_num :=
  ⟨by decide, by decide,
    (init_agreement_slot_reuses_smallest exampleConfig 9
      (tinybft_init_agreement_slot exampleConfig 7 (startup exampleConfig)).2
      (by decide) (by decide)).1.imp (fun _ h => ⟨h.1, h.2.1⟩)⟩

/-- C3. With `TINYBFT_WINDOW_SIZE = 4`, after `tinybft_memory_init` the calls for 1, 2, 3, 4
leave the window holding 1, 2, 3, 4 (slots 0 to 3); the call for 5 then reuses slot 0,
the slot holding 1, and the window holds 5, 2, 3, 4. In general, for every window size
and every strictly increasing list of nonzero `uint32_t` sequence numbers initialised one
after another on the zeroed memory, the nonzero resident sequence numbers are exactly
the last `min n W` numbers of the list. -/
theorem window_after_increasing_inits :
    (∀ (cfg : Config) (m0 : Memory), cfg.TINYBFT_WINDOW_SIZE = 4 →
      resident_seq_nums (init_many cfg [1, 2, 3, 4] (tinybft_memory_init cfg m0)) =
        [1, 2, 3, 4] ∧
      (tinybft_init_agreement_slot cfg 5
        (init_many cfg [1, 2, 3, 4] (tinybft_memory_init cfg m0))).1 = 0 ∧
      (resident_seq_nums (init_many cfg [1, 2, 3, 4] (tinybft_memory_init cfg m0)))[0]? =
        some 1 ∧
      resident_seq_nums (tinybft_init_agreement_slot cfg 5
        (init_many cfg [1, 2, 3, 4] (tinybft_memory_init cfg m0))).2 = [5, 2, 3, 4] ∧
      resident_seq_nums (init_many cfg [1, 2, 3, 4, 5] (tinybft_memory_init cfg m0)) =
        [5, 2, 3, 4]) ∧
    (∀ (cfg : Config) (m0 : Memory) (calls : List Nat),
      calls.Pairwise (fun a b => a < b) →
      (∀ x ∈ calls, x ≠ 0) →
      (∀ x ∈ calls, x ≤ UINT32_MAX) →
      ((resident_seq_nums (init_many cfg calls (tinybft_memory_init cfg m0))).filter
          (fun x => decide (x ≠ 0))).Perm
        (calls.drop (calls.length - min calls.length cfg.TINYBFT_WINDOW_SIZE))) := by
  constructor
  · intro cfg m0 hW
    simp [init_many, tinybft_init_agreement_slot, tinybft_memory_init, zero_agreement_region,
      hW, List.replicate, oldest_scan, resident_seq_nums, zero_agreement_slot, UINT32_MAX]
  · intro cfg m0 calls hinc hnz hb
    have hperm := resident_fresh_perm cfg m0 calls (hinc.imp (fun h => Nat.le_of_lt h)) hb
    have hidx : calls.length - min calls.length cfg.TINYBFT_WINDOW_SIZE =
        calls.length - cfg.TINYBFT_WINDOW_SIZE := by omega
    rw [hidx]
    have hf := hperm.filter (fun x => decide (x ≠ 0))
    have hdrop : (calls.drop (calls.length - cfg.TINYBFT_WINDOW_SIZE)).filter
        (fun x => decide (x ≠ 0)) = calls.drop (calls.length - cfg.TINYBFT_WINDOW_SIZE) := by
      rw [List.filter_eq_self]
      intro x hx
      simpa using hnz x (List.mem_of_mem_drop hx)
    have hrep : (List.replicate (cfg.TINYBFT_WINDOW_SIZE - calls.length) 0).filter
        (fun x => decide (x ≠ 0)) = [] := by
      rw [List.filter_eq_nil_iff]
      intro x hx
      simp [List.eq_of_mem_replicate hx]
    rw [List.filter_append, hrep, hdrop, List.nil_append] at hf
    exact hf

/-- Witness for C3: the default build, and the strictly increasing calls 3, 5, 8, 13, 21, 34
on a window of 4 slots. -/
theorem window_after_increasing_inits_witness :
    resident_seq_nums (init_many exampleConfig [1, 2, 3, 4, 5]
      (tinybft_memory_init exampleConfig (startup exampleConfig))) = [5, 2, 3, 4] ∧
    ([3, 5, 8, 13, 21, 34] : List Nat).Pairwise (fun a b => a < b) ∧
    ((resident_seq_nums (init_many exampleConfig [3, 5, 8, 13, 21, 34]
        (tinybft_memory_init exampleConfig (startup exampleConfig)))).filter
        (fun x => decide (x ≠ 0))).Perm [8, 13, 21, 34] :=
  ⟨(window_after_increasing_inits.1 exampleConfig (startup exampleConfig) rfl).2.2.2.2,
    by decide,
    window_after_increasing_inits.2 exampleConfig (startup exampleConfig) [3, 5, 8, 13, 21, 34]
      (by decide) (by decide) (by decide)⟩

/-- C4. On a non-empty window in which `tinybft_find_agreement_slot(seq)` reports absent,
`tinybft_find_agreement_slot(seq)` called right after `tinybft_init_agreement_slot(seq)`
returns the slot that call returned, and it returns that same slot after every prefix of
any run of further `tinybft_init_agreement_slot` calls for other sequence numbers, as long
as none of those calls selects that slot for reuse. -/
theorem find_after_init_stable (cfg : Config) (seq : Nat) (m : Memory) (others : List Nat)
    (hne : m.agreement_region.slots ≠ [])
    (habs : (tinybft_find_agreement_slot seq m).1 = none)
    (hother : ∀ s ∈ others, s ≠ seq)
    (hkeep : slot_survives cfg (tinybft_init_agreement_slot cfg seq m).1 others
      (tinybft_init_agreement_slot cfg seq m).2 = true) :
    (tinybft_find_agreement_slot seq (tinybft_init_agreement_slot cfg seq m).2).1 =
      some (tinybft_init_agreement_slot cfg seq m).1 ∧
    ∀ k, (tinybft_find_agreement_slot seq
        (init_many cfg (others.take k) (tinybft_init_agreement_slot cfg seq m).2)).1 =
      some (tinybft_init_agreement_slot cfg seq m).1 := by
  have h0 := onlyAt_after_init cfg seq m hne habs
  refine ⟨find_of_onlyAt _ _ _ h0, ?_⟩
  intro k
  apply find_of_onlyAt
  exact onlyAt_init_many cfg seq _ (others.take k) _ h0
    (fun s hs => hother s (List.mem_of_mem_take hs))
    (slot_survives_take cfg _ others _ k hkeep)

/-- Witness for C4: on the zeroed default window, 7 is initialised into slot 1 after 3 went
into slot 0; the further calls 8 and 9 reuse slots 2 and 3, and 7 is still found in slot 1. -/
theorem find_after_init_stable_witness :
    (tinybft_find_agreement_slot 7
      (tinybft_init_agreement_slot exampleConfig 3 (startup exampleConfig)).2).1 = none ∧
    (tinybft_init_agreement_slot exampleConfig 7
      (tinybft_init_agreement_slot exampleConfig 3 (startup exampleConfig)).2).1 = 1 ∧
    (tinybft_find_agreement_slot 7
      (init_many exampleConfig (([8, 9] : List Nat).take 2)
        (tinybft_init_agreement_slot exampleConfig 7
          (tinybft_init_agreement_slot exampleConfig 3 (startup exampleConfig)).2).2)).1 =
      some (tinybft_init_agreement_slot exampleConfig 7
        (tinybft_init_agreement_slot exampleConfig 3 (startup exampleConfig)).2).1 :=
  ⟨by decide, by decide,
    (find_after_init_stable exampleConfig 7
      (tinybft_init_agreement_slot exampleConfig 3 (startup exampleConfig)).2 [8, 9]
      (by decide) (by decide) (by decide) (by decide)).2 2⟩

/-- C5. `tinybft_find_agreement_slot(seq)` returns a slot exactly when some slot of the
window carries `seq`; the slot returned carries `seq` and no slot of lower index does;
otherwise the result is `NULL`; the memory is returned as it was. -/
theorem find_agreement_slot_spec (seq : Nat) (m : Memory) :
    (tinybft_find_agreement_slot seq m).2 = m ∧
    ((tinybft_find_agreement_slot seq m).1.isSome ↔
      ∃ s ∈ m.agreement_region.slots, s.seq_num = seq) ∧
    (∀ i, (tinybft_find_agreement_slot seq m).1 = some i →
      (∃ s, m.agreement_region.slots[i]? = some s ∧ s.seq_num = seq) ∧
      ∀ j, j < i → ∀ t, m.agreement_region.slots[j]? = some t → t.seq_num ≠ seq) ∧
    ((tinybft_find_agreement_slot seq m).1 = none ↔
      ∀ s ∈ m.agreement_region.slots, s.seq_num ≠ seq) := by
  have hnone := find_agreement_scan_none seq m.agreement_region.slots 0
  refine ⟨rfl, ?_, ?_, hnone⟩
  · simp only [tinybft_find_agreement_slot]
    rw [Option.isSome_iff_ne_none, Ne, hnone]
    push_neg
    rfl
  · intro i hi
    simp only [tinybft_find_agreement_slot] at hi
    obtain ⟨k, hk, hs, hmin⟩ := (find_agreement_scan_some seq _ 0 i).mp hi
    have : i = k := by omega
    subst this
    exact ⟨hs, hmin⟩

/-- C6. In every memory reachable from `tinybft_memory_init` by
`tinybft_init_agreement_slot` calls that are each made only when
`tinybft_find_agreement_slot` reports the sequence number absent, two different slots
of the window that hold the same sequence number hold 0, the value of a never-used slot. -/
theorem reachable_no_duplicate_seq (cfg : Config) (m : Memory) (hreach : Reachable cfg m) :
    ∀ (i j : Nat) (s t : tinybft_agreement_slot_t), i ≠ j → m.agreement_region.slots[i]? = some s →
      m.agreement_region.slots[j]? = some t → s.seq_num = t.seq_num → s.seq_num = 0 := by
  induction hreach with
  | init m0 =>
    intro i j s t _ hs _ _
    obtain ⟨h, he⟩ := List.getElem?_eq_some.mp hs
    have hmem : s ∈ (tinybft_memory_init cfg m0).agreement_region.slots := he ▸ List.getElem_mem h
    simp only [tinybft_memory_init, zero_agreement_region] at hmem
    rw [List.eq_of_mem_replicate hmem]
    rfl
  | step m seq _ habs ih =>
    intro i j s t hij hs ht hst
    have hall := (find_agreement_scan_none seq m.agreement_region.slots 0).mp habs
    have hmem : ∀ (k : Nat) (u : tinybft_agreement_slot_t),
        m.agreement_region.slots[k]? = some u → u.seq_num ≠ seq := by
      intro k u hu
      obtain ⟨h, he⟩ := List.getElem?_eq_some.mp hu
      exact hall u (he ▸ List.getElem_mem h)
    simp only [tinybft_init_agreement_slot] at hs ht
    rw [List.getElem?_set] at hs ht
    split at hs
    · split at ht
      · omega
      · split at hs
        · simp only [Option.some.injEq] at hs
          subst hs
          exact absurd hst.symm (hmem j t ht)
        · exact absurd hs (by simp)
    · split at ht
      · split at ht
        · simp only [Option.some.injEq] at ht
          subst ht
          exact absurd hst (hmem i s hs)
        · exact absurd ht (by simp)
      · exact ih i j s t hij hs ht hst

/-- Witness for C6: the zeroed default memory after the calls for 7 and then 9, each
made while the number was absent. -/
theorem reachable_no_duplicate_seq_witness :
    Reachable exampleConfig
      (tinybft_init_agreement_slot exampleConfig 9
        (tinybft_init_agreement_slot exampleConfig 7
          (tinybft_memory_init exampleConfig (startup exampleConfig))).2).2 ∧
    ∀ (i j : Nat) (s t : tinybft_agreement_slot_t), i ≠ j →
      (tinybft_init_agreement_slot exampleConfig 9
        (tinybft_init_agreement_slot exampleConfig 7
          (tinybft_memory_init exampleConfig (startup exampleConfig))).2).2.agreement_region.slots[i]?
        = some s →
      (tinybft_init_agreement_slot exampleConfig 9
        (tinybft_init_agreement_slot exampleConfig 7
          (tinybft_memory_init exampleConfig (startup exampleConfig))).2).2.agreement_region.slots[j]?
        = some t →
      s.seq_num = t.seq_num → s.seq_num = 0 :=
  ⟨Reachable.step _ 9 (Reachable.step _ 7 (Reachable.init _) (by decide)) (by decide),
    reachable_no_duplicate_seq exampleConfig _
      (Reachable.step _ 9 (Reachable.step _ 7 (Reachable.init _) (by decide)) (by decide))⟩

/-- C7. For every memory and every `size` not above `TINYBFT_MAX_MSG_SIZE`, if some buffer
has used-length zero then `tinybft_alloc_from_scratch(size)` returns the address of the
lowest-indexed buffer whose used-length is zero and sets that buffer's used-length to
`size`; the used-length of every other buffer, all buffer bytes and everything outside
the scratch region are unchanged. -/
theorem alloc_from_scratch_first_free (cfg : Config) (size : Nat) (m : Memory)
    (hsize : size ≤ cfg.TINYBFT_MAX_MSG_SIZE)
    (hfree : ∃ i : Nat, m.scratch_region.buffer_used[i]? = some 0) :
    ∃ i : Nat, m.scratch_region.buffer_used[i]? = some 0 ∧
      (∀ j : Nat, j < i → ∀ u, m.scratch_region.buffer_used[j]? = some u → u ≠ 0) ∧
      (tinybft_alloc_from_scratch cfg size m).1 = buffer_addr cfg i ∧
      (tinybft_alloc_from_scratch cfg size m).2.scratch_region.buffer_used[i]? = some size ∧
      (∀ j : Nat, j ≠ i →
        (tinybft_alloc_from_scratch cfg size m).2.scratch_region.buffer_used[j]? =
          m.scratch_region.buffer_used[j]?) ∧
      (tinybft_alloc_from_scratch cfg size m).2.scratch_region.buffer_used.length =
        m.scratch_region.buffer_used.length ∧
      (tinybft_alloc_from_scratch cfg size m).2.scratch_region.buffers =
        m.scratch_region.buffers ∧
      (tinybft_alloc_from_scratch cfg size m).2.agreement_region = m.agreement_region ∧
      (tinybft_alloc_from_scratch cfg size m).2.checkpoint_region = m.checkpoint_region ∧
      (tinybft_alloc_from_scratch cfg size m).2.event_region = m.event_region ∧
      (tinybft_alloc_from_scratch cfg size m).2.using_nvm = m.using_nvm := by
  have hnot : ¬ size > cfg.TINYBFT_MAX_MSG_SIZE := by omega
  cases hscan : alloc_scan m.scratch_region.buffer_used 0 with
  | none =>
    obtain ⟨i, hi⟩ := hfree
    obtain ⟨h, he⟩ := List.getElem?_eq_some.mp hi
    exact absurd he ((alloc_scan_none _ 0).mp hscan _ (List.getElem_mem h))
  | some i =>
    obtain ⟨k, hk, hzero, hmin⟩ := (alloc_scan_some _ 0 i).mp hscan
    have hik : i = k := by omega
    subst hik
    have hlt : i < m.scratch_region.buffer_used.length := (List.getElem?_eq_some.mp hzero).1
    refine ⟨i, hzero, hmin, ?_, ?_, ?_, ?_, ?_, ?_, ?_, ?_, ?_⟩
    all_goals simp only [tinybft_alloc_from_scratch, hnot, if_false, hscan]
    · simp [hlt]
    · intro j hj
      exact List.getElem?_set_ne (fun h => hj h.symm)
    · simp

/-- Witness for C7: the zeroed default pool after one allocation of 100 bytes; the next
allocation of 24 bytes gets buffer 1. -/
theorem alloc_from_scratch_first_free_witness :
    (24 ≤ exampleConfig.TINYBFT_MAX_MSG_SIZE) ∧
    (tinybft_alloc_from_scratch exampleConfig 100
      (startup exampleConfig)).2.scratch_region.buffer_used = [100, 0, 0, 0] ∧
    ∃ i : Nat, (tinybft_alloc_from_scratch exampleConfig 100
        (startup exampleConfig)).2.scratch_region.buffer_used[i]? = some 0 ∧
      (tinybft_alloc_from_scratch exampleConfig 24
        (tinybft_alloc_from_scratch exampleConfig 100 (startup exampleConfig)).2).1 =
        buffer_addr exampleConfig i :=
  ⟨by decide, by decide,
    (alloc_from_scratch_first_free exampleConfig 24
      (tinybft_alloc_from_scratch exampleConfig 100 (startup exampleConfig)).2
      (by decide) ⟨1, by decide⟩).imp (fun _ h => ⟨h.1, h.2.2.1⟩)⟩

/-- C8. With the scratch region at a non-null address, `tinybft_alloc_from_scratch(size)`
returns `NULL` exactly when `size` exceeds `TINYBFT_MAX_MSG_SIZE` or every buffer of the
pool has nonzero used-length; a `size` equal to `TINYBFT_MAX_MSG_SIZE` is accepted whenever
a buffer is free; and whenever the call returns `NULL` the memory is unchanged. -/
theorem alloc_from_scratch_fails_iff (cfg : Config) (size : Nat) (m : Memory)
    (haddr : cfg.scratch_region_addr ≠ 0) :
    ((tinybft_alloc_from_scratch cfg size m).1 = 0 ↔
      (size > cfg.TINYBFT_MAX_MSG_SIZE ∨ ∀ u ∈ m.scratch_region.buffer_used, u ≠ 0)) ∧
    (size = cfg.TINYBFT_MAX_MSG_SIZE →
      (∃ u ∈ m.scratch_region.buffer_used, u = 0) →
      (tinybft_alloc_from_scratch cfg size m).1 ≠ 0) ∧
    ((tinybft_alloc_from_scratch cfg size m).1 = 0 →
      (tinybft_alloc_from_scratch cfg size m).2 = m) := by
  have hnz : ∀ i, buffer_addr cfg i ≠ 0 := by
    intro i h
    simp only [buffer_addr] at h
    omega
  have hiff : (tinybft_alloc_from_scratch cfg size m).1 = 0 ↔
      (size > cfg.TINYBFT_MAX_MSG_SIZE ∨ ∀ u ∈ m.scratch_region.buffer_used, u ≠ 0) := by
    by_cases hs : size > cfg.TINYBFT_MAX_MSG_SIZE
    · simp [tinybft_alloc_from_scratch, hs]
    · cases hscan : alloc_scan m.scratch_region.buffer_used 0 with
      | none =>
        have hall := (alloc_scan_none _ 0).mp hscan
        simp only [tinybft_alloc_from_scratch, hs, if_false, hscan, true_iff]
        exact Or.inr hall
      | some i =>
        simp only [tinybft_alloc_from_scratch, hs, if_false, hscan, false_or]
        constructor
        · intro h
          exact absurd h (hnz i)
        · intro hall
          have hsome : alloc_scan m.scratch_region.buffer_used 0 ≠ none := by simp [hscan]
          exact absurd ((alloc_scan_none _ 0).mpr hall) hsome
  refine ⟨hiff, ?_, ?_⟩
  · intro hsz hfree hnull
    rcases hiff.mp hnull with h | h
    · omega
    · obtain ⟨u, hu, hu0⟩ := hfree
      exact h u hu hu0
  · intro hnull
    by_cases hs : size > cfg.TINYBFT_MAX_MSG_SIZE
    · simp [tinybft_alloc_from_scratch, hs]
    · cases hscan : alloc_scan m.scratch_region.buffer_used 0 with
      | none => simp [tinybft_alloc_from_scratch, hs, hscan]
      | some i =>
        simp only [tinybft_alloc_from_scratch, hs, if_false, hscan] at hnull
        exact absurd hnull (hnz i)

/-- Witness for C8: the default build with the scratch region at address 262144; a request
of 1025 bytes on the zeroed pool fails, a request of exactly 1024 bytes succeeds. -/
theorem alloc_from_scratch_fails_iff_witness :
    exampleConfig.scratch_region_addr ≠ 0 ∧
    (tinybft_alloc_from_scratch exampleConfig 1025 (startup exampleConfig)).1 = 0 ∧
    (tinybft_alloc_from_scratch exampleConfig 1024 (startup exampleConfig)).1 ≠ 0 :=
  ⟨by decide,
    (alloc_from_scratch_fails_iff exampleConfig 1025 (startup exampleConfig) (by decide)).1.mpr
      (Or.inl (by decide)),
    by decide⟩

/-- C9 at the failing input: on the zeroed default pool `tinybft_alloc_from_scratch(0)`
succeeds, returning buffer 0 (a non-null address), yet the used-length of buffer 0 is
still 0 after the call, and the next call, `tinybft_alloc_from_scratch(24)`, returns the
same buffer although no `tinybft_move_to_region` call was made in between. -/
theorem alloc_zero_size_leaves_buffer_free :
    (0 ≤ exampleConfig.TINYBFT_MAX_MSG_SIZE) ∧
    (tinybft_alloc_from_scratch exampleConfig 0 (startup exampleConfig)).1 =
      buffer_addr exampleConfig 0 ∧
    buffer_addr exampleConfig 0 ≠ 0 ∧
    (tinybft_alloc_from_scratch exampleConfig 0
      (startup exampleConfig)).2.scratch_region.buffer_used[0]? = some 0 ∧
    (tinybft_alloc_from_scratch exampleConfig 24
      (tinybft_alloc_from_scratch exampleConfig 0 (startup exampleConfig)).2).1 =
      buffer_addr exampleConfig 0 := by
  refine ⟨by decide, by decide, by decide, by decide, by decide⟩

/-- C10. With buffers at least one byte long, for every memory, destination tag and size,
`tinybft_move_to_region` called with an address that is not the start of any pool buffer,
or with the start of a pool buffer whose used-length is already zero, returns the memory
unchanged: every used-length, all buffer bytes, and the agreement, checkpoint and event
regions are as before. -/
theorem move_to_region_noop (cfg : Config) (dst_region scratch_ptr size : Nat) (m : Memory)
    (hM : 0 < cfg.TINYBFT_MAX_MSG_SIZE)
    (h : (∀ i, i < m.scratch_region.buffers.length → buffer_addr cfg i ≠ scratch_ptr) ∨
      (∃ i, i < m.scratch_region.buffers.length ∧ buffer_addr cfg i = scratch_ptr ∧
        m.scratch_region.buffer_used[i]? = some 0)) :
    tinybft_move_to_region cfg dst_region scratch_ptr size m = m ∧
    (tinybft_move_to_region cfg dst_region scratch_ptr size m).scratch_region.buffer_used =
      m.scratch_region.buffer_used ∧
    (tinybft_move_to_region cfg dst_region scratch_ptr size m).scratch_region.buffers =
      m.scratch_region.buffers ∧
    (tinybft_move_to_region cfg dst_region scratch_ptr size m).agreement_region =
      m.agreement_region ∧
    (tinybft_move_to_region cfg dst_region scratch_ptr size m).checkpoint_region =
      m.checkpoint_region ∧
    (tinybft_move_to_region cfg dst_region scratch_ptr size m).event_region =
      m.event_region := by
  have key : tinybft_move_to_region cfg dst_region scratch_ptr size m = m := by
    cases hscan : move_scan cfg scratch_ptr m.scratch_region.buffers 0 with
    | none => simp [tinybft_move_to_region, hscan]
    | some j =>
      rcases h with hno | ⟨i, hi, haddr, hfree⟩
      · obtain ⟨-, hj, hjaddr⟩ := move_scan_some cfg scratch_ptr _ 0 j hscan
        exact absurd hjaddr (hno j (by omega))
      · obtain ⟨-, -, hjaddr⟩ := move_scan_some cfg scratch_ptr _ 0 j hscan
        have hji : j = i := buffer_addr_injective cfg hM j i (hjaddr.trans haddr.symm)
        subst hji
        have hget : m.scratch_region.buffer_used.getD j 0 = 0 := by
          simp [List.getD_eq_getElem?_getD, hfree]
        simp only [tinybft_move_to_region, hscan, hget, if_true]
  refine ⟨key, ?_, ?_, ?_, ?_, ?_⟩ <;> rw [key]

/-- Witness for C10: on the default build a buffer is allocated and released; releasing
the same, now stale, reference a second time changes nothing. -/
theorem move_to_region_noop_witness :
    (0 < exampleConfig.TINYBFT_MAX_MSG_SIZE) ∧
    (tinybft_alloc_from_scratch exampleConfig 100 (startup exampleConfig)).1 =
      buffer_addr exampleConfig 0 ∧
    (tinybft_move_to_region exampleConfig MEMORY_REGION_AGREEMENT (buffer_addr exampleConfig 0)
      100 (tinybft_alloc_from_scratch exampleConfig 100
        (startup exampleConfig)).2).scratch_region.buffer_used[0]? = some 0 ∧
    tinybft_move_to_region exampleConfig MEMORY_REGION_EVENT (buffer_addr exampleConfig 0) 100
      (tinybft_move_to_region exampleConfig MEMORY_REGION_AGREEMENT
        (buffer_addr exampleConfig 0) 100
        (tinybft_alloc_from_scratch exampleConfig 100 (startup exampleConfig)).2) =
      tinybft_move_to_region exampleConfig MEMORY_REGION_AGREEMENT
        (buffer_addr exampleConfig 0) 100
        (tinybft_alloc_from_scratch exampleConfig 100 (startup exampleConfig)).2 :=
  ⟨by decide, by decide, by decide,
    (move_to_region_noop exampleConfig MEMORY_REGION_EVENT (buffer_addr exampleConfig 0) 100
      (tinybft_move_to_region exampleConfig MEMORY_REGION_AGREEMENT
        (buffer_addr exampleConfig 0) 100
        (tinybft_alloc_from_scratch exampleConfig 100 (startup exampleConfig)).2)
      (by decide) (Or.inr ⟨0, by decide, rfl, by decide⟩)).1⟩

/-- C11. With buffers at least one byte long, for every destination tag (valid or not) and
every size, `tinybft_move_to_region` called with the start address of a pool buffer whose
used-length is nonzero resets that buffer's used-length to zero and leaves the used-length
of every other buffer unchanged; the memory after the call is the same for every
destination tag and every size. -/
theorem move_to_region_releases (cfg : Config) (dst_region size : Nat) (m : Memory) (i u : Nat)
    (hM : 0 < cfg.TINYBFT_MAX_MSG_SIZE) (hi : i < m.scratch_region.buffers.length)
    (hu : m.scratch_region.buffer_used[i]? = some u) (hnz : u ≠ 0) :
    (tinybft_move_to_region cfg dst_region (buffer_addr cfg i) size
      m).scratch_region.buffer_used[i]? = some 0 ∧
    (∀ j : Nat, j ≠ i →
      (tinybft_move_to_region cfg dst_region (buffer_addr cfg i) size
        m).scratch_region.buffer_used[j]? = m.scratch_region.buffer_used[j]?) ∧
    (tinybft_move_to_region cfg dst_region (buffer_addr cfg i) size
      m).scratch_region.buffer_used.length = m.scratch_region.buffer_used.length ∧
    (∀ dst_region' size' : Nat,
      tinybft_move_to_region cfg dst_region' (buffer_addr cfg i) size' m =
        tinybft_move_to_region cfg dst_region (buffer_addr cfg i) size m) := by
  have hlt : i < m.scratch_region.buffer_used.length := (List.getElem?_eq_some.mp hu).1
  have key := move_to_region_in_use cfg dst_region size m i u hM hi hu hnz
  refine ⟨?_, ?_, ?_, ?_⟩
  · rw [key]
    simp [hlt]
  · intro j hj
    rw [key]
    exact List.getElem?_set_ne (fun h => hj h.symm)
  · rw [key]
    simp
  · intro dst_region' size'
    rw [key, move_to_region_in_use cfg dst_region' size' m i u hM hi hu hnz]

/-- Witness for C11: on the default build buffers 0 and 1 are allocated (100 and 24 bytes);
releasing buffer 1 with the invalid tag 9 and size 0 frees it and leaves buffer 0 at 100. -/
theorem move_to_region_releases_witness :
    (tinybft_alloc_from_scratch exampleConfig 24
      (tinybft_alloc_from_scratch exampleConfig 100
        (startup exampleConfig)).2).2.scratch_region.buffer_used = [100, 24, 0, 0] ∧
    (tinybft_move_to_region exampleConfig 9 (buffer_addr exampleConfig 1) 0
      (tinybft_alloc_from_scratch exampleConfig 24
        (tinybft_alloc_from_scratch exampleConfig 100
          (startup exampleConfig)).2).2).scratch_region.buffer_used[1]? = some 0 ∧
    (tinybft_move_to_region exampleConfig 9 (buffer_addr exampleConfig 1) 0
      (tinybft_alloc_from_scratch exampleConfig 24
        (tinybft_alloc_from_scratch exampleConfig 100
          (startup exampleConfig)).2).2).scratch_region.buffer_used[0]? = some 100 :=
  ⟨by decide,
    (move_to_region_releases exampleConfig 9 0
      (tinybft_alloc_from_scratch exampleConfig 24
        (tinybft_alloc_from_scratch exampleConfig 100 (startup exampleConfig)).2).2 1 24
      (by decide) (by decide) (by decide) (by decide)).1,
    by decide⟩

/-- C12, as stated, fails: in the default build buffer 0 is in use and stages the bytes
7, 7, 7, 7; after `tinybft_move_to_region` with size 4 and destination Agreement,
Checkpoint or Event the destination region is still the all-zero region, every byte of it
is 0, and the staged bytes occur nowhere in it. -/
theorem move_to_region_no_copy_example :
    stagedMemory.scratch_region.buffer_used[0]? = some 4 ∧
    (stagedMemory.scratch_region.buffers[0]?.map (fun b => b.take 4)) = some [7, 7, 7, 7] ∧
    (tinybft_move_to_region exampleConfig MEMORY_REGION_AGREEMENT (buffer_addr exampleConfig 0) 4
      stagedMemory).agreement_region = zero_agreement_region exampleConfig ∧
    ¬ ([7, 7, 7, 7] <:+: agreement_region_bytes
      (tinybft_move_to_region exampleConfig MEMORY_REGION_AGREEMENT (buffer_addr exampleConfig 0)
        4 stagedMemory).agreement_region) ∧
    ¬ ([7, 7, 7, 7] <:+: checkpoint_region_bytes
      (tinybft_move_to_region exampleConfig MEMORY_REGION_CHECKPOINT
        (buffer_addr exampleConfig 0) 4 stagedMemory).checkpoint_region) ∧
    ¬ ([7, 7, 7, 7] <:+: event_region_bytes
      (tinybft_move_to_region exampleConfig MEMORY_REGION_EVENT (buffer_addr exampleConfig 0) 4
        stagedMemory).event_region) := by
  have key : ∀ dst : Nat, tinybft_move_to_region exampleConfig dst (buffer_addr exampleConfig 0)
      4 stagedMemory = { stagedMemory with scratch_region :=
        { stagedMemory.scratch_region with
          buffer_used := stagedMemory.scratch_region.buffer_used.set 0 0 } } :=
    fun dst => move_to_region_in_use exampleConfig dst 4 stagedMemory 0 4 (by decide) (by decide)
      (by decide) (by decide)
  have h7 : (7 : Nat) ∈ ([7, 7, 7, 7] : List Nat) := by decide
  refine ⟨by decide, by decide, ?_, ?_, ?_, ?_⟩
  · rw [key]
    rfl
  · rw [key]
    intro h
    have := agreement_region_bytes_zero exampleConfig 7 (h.subset h7)
    omega
  · rw [key]
    intro h
    have := checkpoint_region_bytes_zero exampleConfig 7 (h.subset h7)
    omega
  · rw [key]
    intro h
    have := event_region_bytes_zero exampleConfig 7 (h.subset h7)
    omega

/-- C12, amended. With buffers at least one byte long, `tinybft_move_to_region` called with
the start address of a pool buffer in use copies nothing, whatever the destination tag
and size: the agreement, checkpoint and event regions, hence all their bytes, and the
bytes of every scratch buffer are exactly as before the call; the call only resets the
used-length of that buffer. -/
theorem move_to_region_copies_nothing (cfg : Config) (dst_region size : Nat) (m : Memory)
    (i u : Nat) (hM : 0 < cfg.TINYBFT_MAX_MSG_SIZE) (hi : i < m.scratch_region.buffers.length)
    (hu : m.scratch_region.buffer_used[i]? = some u) (hnz : u ≠ 0) :
    (tinybft_move_to_region cfg dst_region (buffer_addr cfg i) size m).agreement_region =
      m.agreement_region ∧
    (tinybft_move_to_region cfg dst_region (buffer_addr cfg i) size m).checkpoint_region =
      m.checkpoint_region ∧
    (tinybft_move_to_region cfg dst_region (buffer_addr cfg i) size m).event_region =
      m.event_region ∧
    (tinybft_move_to_region cfg dst_region (buffer_addr cfg i) size m).scratch_region.buffers =
      m.scratch_region.buffers ∧
    agreement_region_bytes
      (tinybft_move_to_region cfg dst_region (buffer_addr cfg i) size m).agreement_region =
      agreement_region_bytes m.agreement_region ∧
    checkpoint_region_bytes
      (tinybft_move_to_region cfg dst_region (buffer_addr cfg i) size m).checkpoint_region =
      checkpoint_region_bytes m.checkpoint_region ∧
    event_region_bytes
      (tinybft_move_to_region cfg dst_region (buffer_addr cfg i) size m).event_region =
      event_region_bytes m.event_region ∧
    (tinybft_move_to_region cfg dst_region (buffer_addr cfg i) size
      m).scratch_region.buffer_used = m.scratch_region.buffer_used.set i 0 := by
  rw [move_to_region_in_use cfg dst_region size m i u hM hi hu hnz]
  exact ⟨rfl, rfl, rfl, rfl, rfl, rfl, rfl, rfl⟩

/-- Witness for C12 (amended): the staged buffer 0 of the default build, moved to the
checkpoint region. -/
theorem move_to_region_copies_nothing_witness :
    (0 < exampleConfig.TINYBFT_MAX_MSG_SIZE) ∧
    stagedMemory.scratch_region.buffer_used[0]? = some 4 ∧
    (tinybft_move_to_region exampleConfig MEMORY_REGION_CHECKPOINT (buffer_addr exampleConfig 0)
      4 stagedMemory).checkpoint_region = stagedMemory.checkpoint_region :=
  ⟨by decide, by decide,
    (move_to_region_copies_nothing exampleConfig MEMORY_REGION_CHECKPOINT 4 stagedMemory 0 4
      (by decide) (by decide) (by decide) (by decide)).2.1⟩

/-- C13. When some certificate carries `seq`, `tinybft_find_checkpoint_cert(seq)` returns
the lowest-indexed certificate whose `seq_num` is `seq` and returns the memory as it was
(votes, counts and validity flags included). On every memory with a non-empty certificate
array and for every `seq`, a second call right after the first returns the same certificate
and leaves the memory produced by the first call unchanged. -/
theorem find_checkpoint_cert_idempotent (cfg : Config) (seq : Nat) (m : Memory)
    (hne : m.checkpoint_region.certificates ≠ []) :
    ((∃ c ∈ m.checkpoint_region.certificates, c.seq_num = seq) →
      (∃ c, m.checkpoint_region.certificates[(tinybft_find_checkpoint_cert cfg seq m).1]? =
          some c ∧ c.seq_num = seq) ∧
      (∀ j, j < (tinybft_find_checkpoint_cert cfg seq m).1 →
        ∀ d, m.checkpoint_region.certificates[j]? = some d → d.seq_num ≠ seq) ∧
      (tinybft_find_checkpoint_cert cfg seq m).2 = m) ∧
    (tinybft_find_checkpoint_cert cfg seq (tinybft_find_checkpoint_cert cfg seq m).2).1 =
      (tinybft_find_checkpoint_cert cfg seq m).1 ∧
    (tinybft_find_checkpoint_cert cfg seq (tinybft_find_checkpoint_cert cfg seq m).2).2 =
      (tinybft_find_checkpoint_cert cfg seq m).2 := by
  have hafter := find_checkpoint_scan_after cfg seq m hne
  have hsecond := find_checkpoint_cert_present cfg seq _ _ hafter
  refine ⟨?_, by rw [hsecond], by rw [hsecond]⟩
  rintro ⟨c, hc, hcs⟩
  cases hscan : find_checkpoint_scan seq m.checkpoint_region.certificates 0 with
  | none => exact absurd hcs ((find_checkpoint_scan_none seq _ 0).mp hscan c hc)
  | some i =>
    obtain ⟨k, hk, hcar, hmin⟩ := (find_checkpoint_scan_some seq _ 0 i).mp hscan
    have hik : i = k := by omega
    subst hik
    rw [find_checkpoint_cert_present cfg seq m i hscan]
    exact ⟨hcar, hmin, rfl⟩

/-- Witness for C13: the default build after the certificate for 4 was created; asking for
4 again returns certificate 0 and changes nothing. -/
theorem find_checkpoint_cert_idempotent_witness :
    (tinybft_find_checkpoint_cert exampleConfig 4
      (startup exampleConfig)).2.checkpoint_region.certificates ≠ [] ∧
    (tinybft_find_checkpoint_cert exampleConfig 4 (startup exampleConfig)).1 = 0 ∧
    (tinybft_find_checkpoint_cert exampleConfig 4
      (tinybft_find_checkpoint_cert exampleConfig 4
        (tinybft_find_checkpoint_cert exampleConfig 4 (startup exampleConfig)).2).2).1 =
      (tinybft_find_checkpoint_cert exampleConfig 4
        (tinybft_find_checkpoint_cert exampleConfig 4 (startup exampleConfig)).2).1 :=
  ⟨by decide, by decide,
    (find_checkpoint_cert_idempotent exampleConfig 4
      (tinybft_find_checkpoint_cert exampleConfig 4 (startup exampleConfig)).2
      (by decide)).2.1⟩

/-- C14 at the failing input: in the build with a checkpoint every 3 sequence numbers the
certificates are (3, valid) and (`UINT32_MAX`, invalid); no certificate carries 6, an
invalid certificate exists, yet `tinybft_find_checkpoint_cert(6)` returns index 0 and
overwrites the valid certificate for 3, leaving the invalid one in place. -/
theorem find_checkpoint_cert_sacrifices_valid :
    certificate_keys sentinelMemory = [(3, true), (4294967295, false)] ∧
    (∀ c ∈ sentinelMemory.checkpoint_region.certificates, c.seq_num ≠ 6) ∧
    (∃ c ∈ sentinelMemory.checkpoint_region.certificates, c.valid = false) ∧
    (tinybft_find_checkpoint_cert everyThirdConfig 6 sentinelMemory).1 = 0 ∧
    certificate_keys (tinybft_find_checkpoint_cert everyThirdConfig 6 sentinelMemory).2 =
      [(6, false), (4294967295, false)] := by
  refine ⟨by decide, by decide, by decide, by decide, by decide⟩

/-- C15. On every memory with a non-empty certificate array (all certificates valid or
not) and for every `seq`, `tinybft_find_checkpoint_cert(seq)` returns a certificate whose
`seq_num` is `seq`. When no certificate carried `seq`, the returned certificate is the
all-zero certificate (count 0, validity flag false, every payload byte 0) stamped with
`seq`, and every other certificate, the number of certificates, the checkpoint messages
and the other regions are unchanged. -/
theorem find_checkpoint_cert_total (cfg : Config) (seq : Nat) (m : Memory)
    (hne : m.checkpoint_region.certificates ≠ []) :
    (∃ c, (tinybft_find_checkpoint_cert cfg seq m).2.checkpoint_region.certificates[
        (tinybft_find_checkpoint_cert cfg seq m).1]? = some c ∧ c.seq_num = seq) ∧
    ((∀ c ∈ m.checkpoint_region.certificates, c.seq_num ≠ seq) →
      (∃ c, (tinybft_find_checkpoint_cert cfg seq m).2.checkpoint_region.certificates[
          (tinybft_find_checkpoint_cert cfg seq m).1]? = some c ∧
        c = { zero_checkpoint_certificate cfg with seq_num := seq } ∧
        c.seq_num = seq ∧ c.checkpoint_count = 0 ∧ c.valid = false ∧
        ∀ row ∈ c.checkpoints, ∀ b ∈ row, b = 0) ∧
      (∀ k, k ≠ (tinybft_find_checkpoint_cert cfg seq m).1 →
        (tinybft_find_checkpoint_cert cfg seq m).2.checkpoint_region.certificates[k]? =
          m.checkpoint_region.certificates[k]?) ∧
      (tinybft_find_checkpoint_cert cfg seq m).2.checkpoint_region.certificates.length =
        m.checkpoint_region.certificates.length ∧
      (tinybft_find_checkpoint_cert cfg seq m).2.checkpoint_region.checkpoint_msgs =
        m.checkpoint_region.checkpoint_msgs ∧
      (tinybft_find_checkpoint_cert cfg seq m).2.agreement_region = m.agreement_region ∧
      (tinybft_find_checkpoint_cert cfg seq m).2.event_region = m.event_region ∧
      (tinybft_find_checkpoint_cert cfg seq m).2.scratch_region = m.scratch_region ∧
      (tinybft_find_checkpoint_cert cfg seq m).2.using_nvm = m.using_nvm) := by
  constructor
  · have hafter := find_checkpoint_scan_after cfg seq m hne
    obtain ⟨k, hk, hcar, -⟩ := (find_checkpoint_scan_some seq _ 0 _).mp hafter
    have hik : (tinybft_find_checkpoint_cert cfg seq m).1 = k := by omega
    rw [hik]
    exact hcar
  · intro habs
    have hscan := (find_checkpoint_scan_none seq _ 0).mpr habs
    have hlt := oldest_invalid_scan_lt m.checkpoint_region.certificates hne
    rw [find_checkpoint_cert_absent cfg seq m hscan]
    refine ⟨⟨{ zero_checkpoint_certificate cfg with seq_num := seq }, by simp [hlt], rfl, rfl,
      rfl, rfl, ?_⟩, ?_, by simp, rfl, rfl, rfl, rfl, rfl⟩
    · intro row hrow b hb
      have := List.eq_of_mem_replicate hrow
      subst this
      exact List.eq_of_mem_replicate hb
    · intro k hk
      exact List.getElem?_set_ne (fun h => hk h.symm)

/-- Witness for C15: the default build with all three certificates marked valid; the call
for 8 still succeeds, reusing certificate 0. -/
theorem find_checkpoint_cert_total_witness :
    certificate_keys (checkpoint_mark_valid 2 (checkpoint_mark_valid 1
      (checkpoint_mark_valid 0 (startup exampleConfig)))) =
      [(0, true), (0, true), (0, true)] ∧
    (tinybft_find_checkpoint_cert exampleConfig 8 (checkpoint_mark_valid 2
      (checkpoint_mark_valid 1 (checkpoint_mark_valid 0 (startup exampleConfig))))).1 = 0 ∧
    ∃ c, (tinybft_find_checkpoint_cert exampleConfig 8 (checkpoint_mark_valid 2
        (checkpoint_mark_valid 1 (checkpoint_mark_valid 0
          (startup exampleConfig))))).2.checkpoint_region.certificates[
        (tinybft_find_checkpoint_cert exampleConfig 8 (checkpoint_mark_valid 2
          (checkpoint_mark_valid 1 (checkpoint_mark_valid 0
            (startup exampleConfig))))).1]? = some c ∧ c.seq_num = 8 :=
  ⟨by decide, by decide,
    (find_checkpoint_cert_total exampleConfig 8 (checkpoint_mark_valid 2
      (checkpoint_mark_valid 1 (checkpoint_mark_valid 0 (startup exampleConfig))))
      (by decide)).1⟩

/-- C16 (against the aggregator modelled from the spec). A prepare vote from an in-range
sender is stored at the position indexed by the sender and leaves the other positions, and
it makes the sender one that has voted; a vote from a sender that has already voted leaves
the count where it was, whatever the payloads, while a first vote of an in-range sender
raises it by one; in particular two votes in a row from one sender count once. The
certificate is complete exactly when the count is at least `2f + 1`; a vote never lowers
the count, so a complete certificate stays complete; on the zeroed certificate of a slot
just initialised the count after any run of votes is the number of distinct in-range
senders, at most `N`. The same holds for commit votes. With `N = 4`, `f = 1`: on the slot
for sequence number 5 the votes of replicas 0, 1, 2 give count 3 and a complete prepare
certificate (two votes do not), and a fourth vote from replica 0 leaves the count at 3. -/
theorem quorum_counts_distinct_senders :
    (∀ (cfg : Config) (sender : Nat) (payload : List Nat) (pv : prepare_votes),
      sender < cfg.TINYBFT_MAX_REPLICAS → sender < pv.cert.prepares.length →
      (append_prepare_vote cfg sender payload pv).cert.prepares[sender]? = some payload ∧
      (∀ j : Nat, j ≠ sender →
        (append_prepare_vote cfg sender payload pv).cert.prepares[j]? =
          pv.cert.prepares[j]?)) ∧
    (∀ (cfg : Config) (sender : Nat) (payload : List Nat) (pv : prepare_votes),
      (sender < cfg.TINYBFT_MAX_REPLICAS →
        sender ∈ (append_prepare_vote cfg sender payload pv).voted) ∧
      (sender ∈ pv.voted →
        (append_prepare_vote cfg sender payload pv).cert.prepare_count =
          pv.cert.prepare_count) ∧
      (sender < cfg.TINYBFT_MAX_REPLICAS → sender ∉ pv.voted →
        (append_prepare_vote cfg sender payload pv).cert.prepare_count =
          pv.cert.prepare_count + 1)) ∧
    (∀ (cfg : Config) (sender : Nat) (p1 p2 : List Nat) (pv : prepare_votes),
      (append_prepare_vote cfg sender p2
        (append_prepare_vote cfg sender p1 pv)).cert.prepare_count =
        (append_prepare_vote cfg sender p1 pv).cert.prepare_count ∧
      (sender < cfg.TINYBFT_MAX_REPLICAS → sender < pv.cert.prepares.length →
        (append_prepare_vote cfg sender p2
          (append_prepare_vote cfg sender p1 pv)).cert.prepares[sender]? = some p2)) ∧
    (∀ (cfg : Config) (cert : tinybft_prepare_certificate_t),
      prepare_complete cfg cert = true ↔ 2 * cfg.TINYBFT_MAX_FAULTY + 1 ≤ cert.prepare_count) ∧
    (∀ (cfg : Config) (sender : Nat) (payload : List Nat) (pv : prepare_votes),
      pv.cert.prepare_count ≤ (append_prepare_vote cfg sender payload pv).cert.prepare_count ∧
      (prepare_complete cfg pv.cert = true →
        prepare_complete cfg (append_prepare_vote cfg sender payload pv).cert = true)) ∧
    (∀ (cfg : Config) (vs : List (Nat × List Nat)),
      (append_prepare_votes cfg vs
        (no_prepare_votes (zero_prepare_certificate cfg))).cert.prepare_count =
        (senders_in_range cfg vs).toFinset.card ∧
      (append_prepare_votes cfg vs
        (no_prepare_votes (zero_prepare_certificate cfg))).cert.prepare_count ≤
        cfg.TINYBFT_MAX_REPLICAS) ∧
    (∀ (cfg : Config) (sender : Nat) (payload : List Nat) (cv : commit_votes),
      sender < cfg.TINYBFT_MAX_REPLICAS → sender < cv.cert.commits.length →
      (append_commit_vote cfg sender payload cv).cert.commits[sender]? = some payload ∧
      (∀ j : Nat, j ≠ sender →
        (append_commit_vote cfg sender payload cv).cert.commits[j]? = cv.cert.commits[j]?)) ∧
    (∀ (cfg : Config) (sender : Nat) (payload : List Nat) (cv : commit_votes),
      (sender < cfg.TINYBFT_MAX_REPLICAS →
        sender ∈ (append_commit_vote cfg sender payload cv).voted) ∧
      (sender ∈ cv.voted →
        (append_commit_vote cfg sender payload cv).cert.commit_count = cv.cert.commit_count) ∧
      (sender < cfg.TINYBFT_MAX_REPLICAS → sender ∉ cv.voted →
        (append_commit_vote cfg sender payload cv).cert.commit_count =
          cv.cert.commit_count + 1)) ∧
    (∀ (cfg : Config) (sender : Nat) (p1 p2 : List Nat) (cv : commit_votes),
      (append_commit_vote cfg sender p2
        (append_commit_vote cfg sender p1 cv)).cert.commit_count =
        (append_commit_vote cfg sender p1 cv).cert.commit_count ∧
      (sender < cfg.TINYBFT_MAX_REPLICAS → sender < cv.cert.commits.length →
        (append_commit_vote cfg sender p2
          (append_commit_vote cfg sender p1 cv)).cert.commits[sender]? = some p2)) ∧
    (∀ (cfg : Config) (cert : tinybft_commit_certificate_t),
      commit_complete cfg cert = true ↔ 2 * cfg.TINYBFT_MAX_FAULTY + 1 ≤ cert.commit_count) ∧
    (∀ (cfg : Config) (sender : Nat) (payload : List Nat) (cv : commit_votes),
      cv.cert.commit_count ≤ (append_commit_vote cfg sender payload cv).cert.commit_count ∧
      (commit_complete cfg cv.cert = true →
        commit_complete cfg (append_commit_vote cfg sender payload cv).cert = true)) ∧
    (∀ (cfg : Config) (vs : List (Nat × List Nat)),
      (append_commit_votes cfg vs
        (no_commit_votes (zero_commit_certificate cfg))).cert.commit_count =
        (senders_in_range cfg vs).toFinset.card ∧
      (append_commit_votes cfg vs
        (no_commit_votes (zero_commit_certificate cfg))).cert.commit_count ≤
        cfg.TINYBFT_MAX_REPLICAS) ∧
    ((init_many exampleConfig [1, 2, 3, 4, 5]
        (startup exampleConfig)).agreement_region.slots[0]? = some slot_five ∧
      exampleConfig.TINYBFT_MAX_REPLICAS = 4 ∧ exampleConfig.TINYBFT_MAX_FAULTY = 1 ∧
      (append_prepare_votes exampleConfig three_prepares
        (no_prepare_votes slot_five.prepare_cert)).cert.prepare_count = 3 ∧
      prepare_complete exampleConfig (append_prepare_votes exampleConfig three_prepares
        (no_prepare_votes slot_five.prepare_cert)).cert = true ∧
      prepare_complete exampleConfig (append_prepare_votes exampleConfig
        (three_prepares.take 2) (no_prepare_votes slot_five.prepare_cert)).cert = false ∧
      (append_prepare_vote exampleConfig 0 (vote_payload 3 0 0 5)
        (append_prepare_votes exampleConfig three_prepares
          (no_prepare_votes slot_five.prepare_cert))).cert.prepare_count = 3) := by
  refine ⟨?_, ?_, ?_, ?_, ?_, ?_, ?_, ?_, ?_, ?_, ?_, ?_, ?_⟩
  · intro cfg sender payload pv hs hl
    exact append_vote_store cfg sender payload pv.cert.prepares pv.voted pv.cert.prepare_count
      hs hl
  · intro cfg sender payload pv
    refine ⟨?_, ?_, ?_⟩
    · exact (append_vote_voted cfg sender payload pv.cert.prepares pv.voted
        pv.cert.prepare_count).1
    · intro h
      exact (append_vote_repeat cfg sender payload pv.cert.prepares pv.voted
        pv.cert.prepare_count h).1
    · intro hs h
      exact append_vote_first cfg sender payload pv.cert.prepares pv.voted
        pv.cert.prepare_count hs h
  · intro cfg sender p1 p2 pv
    constructor
    · by_cases hs : sender < cfg.TINYBFT_MAX_REPLICAS
      · have hmem := (append_vote_voted cfg sender p1 pv.cert.prepares pv.voted
          pv.cert.prepare_count).1 hs
        exact (append_vote_repeat cfg sender p2 (append_prepare_vote cfg sender p1 pv).cert.prepares
          (append_prepare_vote cfg sender p1 pv).voted
          (append_prepare_vote cfg sender p1 pv).cert.prepare_count hmem).1
      · simp only [append_prepare_vote, append_vote, hs, if_false]
    · intro hs hl
      have hl' : sender < (append_prepare_vote cfg sender p1 pv).cert.prepares.length := by
        simp only [append_prepare_vote, append_vote_length]
        exact hl
      exact (append_vote_store cfg sender p2 (append_prepare_vote cfg sender p1 pv).cert.prepares
        (append_prepare_vote cfg sender p1 pv).voted
        (append_prepare_vote cfg sender p1 pv).cert.prepare_count hs hl').1
  · intro cfg cert
    simp [prepare_complete]
  · intro cfg sender payload pv
    have hle := append_vote_count_le cfg sender payload pv.cert.prepares pv.voted
      pv.cert.prepare_count
    refine ⟨hle, ?_⟩
    simp only [prepare_complete, decide_eq_true_eq, append_prepare_vote]
    intro h
    omega
  · intro cfg vs
    exact fresh_prepare_votes_count cfg vs (zero_prepare_certificate cfg) rfl
  · intro cfg sender payload cv hs hl
    exact append_vote_store cfg sender payload cv.cert.commits cv.voted cv.cert.commit_count
      hs hl
  · intro cfg sender payload cv
    refine ⟨?_, ?_, ?_⟩
    · exact (append_vote_voted cfg sender payload cv.cert.commits cv.voted
        cv.cert.commit_count).1
    · intro h
      exact (append_vote_repeat cfg sender payload cv.cert.commits cv.voted
        cv.cert.commit_count h).1
    · intro hs h
      exact append_vote_first cfg sender payload cv.cert.commits cv.voted
        cv.cert.commit_count hs h
  · intro cfg sender p1 p2 cv
    constructor
    · by_cases hs : sender < cfg.TINYBFT_MAX_REPLICAS
      · have hmem := (append_vote_voted cfg sender p1 cv.cert.commits cv.voted
          cv.cert.commit_count).1 hs
        exact (append_vote_repeat cfg sender p2 (append_commit_vote cfg sender p1 cv).cert.commits
          (append_commit_vote cfg sender p1 cv).voted
          (append_commit_vote cfg sender p1 cv).cert.commit_count hmem).1
      · simp only [append_commit_vote, append_vote, hs, if_false]
    · intro hs hl
      have hl' : sender < (append_commit_vote cfg sender p1 cv).cert.commits.length := by
        simp only [append_commit_vote, append_vote_length]
        exact hl
      exact (append_vote_store cfg sender p2 (append_commit_vote cfg sender p1 cv).cert.commits
        (append_commit_vote cfg sender p1 cv).voted
        (append_commit_vote cfg sender p1 cv).cert.commit_count hs hl').1
  · intro cfg cert
    simp [commit_complete]
  · intro cfg sender payload cv
    have hle := append_vote_count_le cfg sender payload cv.cert.commits cv.voted
      cv.cert.commit_count
    refine ⟨hle, ?_⟩
    simp only [commit_complete, decide_eq_true_eq, append_commit_vote]
    intro h
    omega
  · intro cfg vs
    exact fresh_commit_votes_count cfg vs (zero_commit_certificate cfg) rfl
  · exact ⟨rfl, rfl, rfl, by decide, by decide, by decide, by decide⟩

/-- Witness for C16: the default build (`N = 4`, `f = 1`); replica 2 votes twice, with
all-zero payloads, on the zeroed certificate of the slot for sequence number 5 and is
counted once; replica 1 then casts a first vote and the count is 2. -/
theorem quorum_counts_distinct_senders_witness :
    (2 < exampleConfig.TINYBFT_MAX_REPLICAS) ∧
    2 ∈ (append_prepare_vote exampleConfig 2 [0, 0, 0, 0]
      (no_prepare_votes slot_five.prepare_cert)).voted ∧
    (append_prepare_vote exampleConfig 2 [0, 0, 0, 0]
      (append_prepare_vote exampleConfig 2 [0, 0, 0, 0]
        (no_prepare_votes slot_five.prepare_cert))).cert.prepare_count = 1 ∧
    (append_prepare_vote exampleConfig 1 []
      (append_prepare_vote exampleConfig 2 [0, 0, 0, 0]
        (append_prepare_vote exampleConfig 2 [0, 0, 0, 0]
          (no_prepare_votes slot_five.prepare_cert)))).cert.prepare_count = 2 :=
  ⟨by decide,
    (quorum_counts_distinct_senders.2.1 exampleConfig 2 [0, 0, 0, 0]
      (no_prepare_votes slot_five.prepare_cert)).1 (by decide),
    ((quorum_counts_distinct_senders.2.1 exampleConfig 2 [0, 0, 0, 0]
      (append_prepare_vote exampleConfig 2 [0, 0, 0, 0]
        (no_prepare_votes slot_five.prepare_cert))).2.1 (by decide)).trans (by decide),
    ((quorum_counts_distinct_senders.2.1 exampleConfig 1 []
      (append_prepare_vote exampleConfig 2 [0, 0, 0, 0]
        (append_prepare_vote exampleConfig 2 [0, 0, 0, 0]
          (no_prepare_votes slot_five.prepare_cert)))).2.2 (by decide) (by decide)).trans
      (by decide)⟩

/-- C17. With the four static regions at non-null, pairwise distinct addresses,
`tinybft_get_region` returns the address of the agreement, checkpoint, event and scratch
region for the tags 0, 1, 2 and 3; distinct valid tags give distinct addresses; the result
for a tag does not depend on the memory; every other tag value, `MEMORY_REGION_COUNT`
included, gives `NULL`, and `NULL` is returned only for such a tag; the memory is returned
unchanged. -/
theorem get_region_spec (cfg : Config) (m : Memory)
    (hnull : cfg.agreement_region_addr ≠ 0 ∧ cfg.checkpoint_region_addr ≠ 0 ∧
      cfg.event_region_addr ≠ 0 ∧ cfg.scratch_region_addr ≠ 0)
    (hdistinct : [cfg.agreement_region_addr, cfg.checkpoint_region_addr,
      cfg.event_region_addr, cfg.scratch_region_addr].Nodup) :
    (tinybft_get_region cfg MEMORY_REGION_AGREEMENT m).1 = cfg.agreement_region_addr ∧
    (tinybft_get_region cfg MEMORY_REGION_CHECKPOINT m).1 = cfg.checkpoint_region_addr ∧
    (tinybft_get_region cfg MEMORY_REGION_EVENT m).1 = cfg.event_region_addr ∧
    (tinybft_get_region cfg MEMORY_REGION_SCRATCH m).1 = cfg.scratch_region_addr ∧
    (∀ t1 t2 : Nat, t1 < MEMORY_REGION_COUNT → t2 < MEMORY_REGION_COUNT → t1 ≠ t2 →
      (tinybft_get_region cfg t1 m).1 ≠ (tinybft_get_region cfg t2 m).1) ∧
    (∀ (t : Nat) (m' : Memory), (tinybft_get_region cfg t m').1 = (tinybft_get_region cfg t m).1) ∧
    (tinybft_get_region cfg MEMORY_REGION_COUNT m).1 = 0 ∧
    (∀ t : Nat, (tinybft_get_region cfg t m).1 = 0 ↔ MEMORY_REGION_COUNT ≤ t) ∧
    (∀ t : Nat, (tinybft_get_region cfg t m).2 = m) := by
  obtain ⟨ha, hc, he, hs⟩ := hnull
  simp only [List.nodup_cons, List.mem_cons, List.mem_singleton, not_or, List.not_mem_nil,
    not_false_eq_true, List.nodup_nil, and_true] at hdistinct
  obtain ⟨⟨hac, hae, has⟩, ⟨hce, hcs⟩, hes⟩ := hdistinct
  have hval : ∀ t : Nat, (tinybft_get_region cfg t m).1 =
      if t = 0 then cfg.agreement_region_addr
      else if t = 1 then cfg.checkpoint_region_addr
      else if t = 2 then cfg.event_region_addr
      else if t = 3 then cfg.scratch_region_addr
      else 0 := by
    intro t
    simp only [tinybft_get_region, MEMORY_REGION_AGREEMENT, MEMORY_REGION_CHECKPOINT,
      MEMORY_REGION_EVENT, MEMORY_REGION_SCRATCH]
    split_ifs <;> rfl
  refine ⟨rfl, rfl, rfl, rfl, ?_, ?_, rfl, ?_, ?_⟩
  · intro t1 t2 h1 h2 h12
    simp only [MEMORY_REGION_COUNT] at h1 h2
    rw [hval t1, hval t2]
    have c1 : t1 = 0 ∨ t1 = 1 ∨ t1 = 2 ∨ t1 = 3 := by omega
    have c2 : t2 = 0 ∨ t2 = 1 ∨ t2 = 2 ∨ t2 = 3 := by omega
    rcases c1 with rfl | rfl | rfl | rfl <;> rcases c2 with rfl | rfl | rfl | rfl <;>
      simp_all [eq_comm]
  · intro t m'
    simp only [tinybft_get_region]
    split_ifs <;> rfl
  · intro t
    rw [hval t]
    simp only [MEMORY_REGION_COUNT]
    split_ifs with h0 h1 h2 h3
    · simp [h0, ha]
    · simp [h1, hc]
    · simp [h2, he]
    · simp [h3, hs]
    · simp only [true_iff]
      omega
  · intro t
    simp only [tinybft_get_region]
    split_ifs <;> rfl

/-- Witness for C17: the default build with the regions at 65536, 131072, 196608 and
262144. -/
theorem get_region_spec_witness :
    [exampleConfig.agreement_region_addr, exampleConfig.checkpoint_region_addr,
      exampleConfig.event_region_addr, exampleConfig.scratch_region_addr].Nodup ∧
    (tinybft_get_region exampleConfig MEMORY_REGION_EVENT (startup exampleConfig)).1 = 196608 ∧
    (tinybft_get_region exampleConfig MEMORY_REGION_COUNT (startup exampleConfig)).1 = 0 :=
  ⟨by decide,
    (get_region_spec exampleConfig (startup exampleConfig) (by decide) (by decide)).2.2.1,
    (get_region_spec exampleConfig (startup exampleConfig) (by decide) (by decide)).2.2.2.2.2.2.1⟩

/-- C18. From every prior memory `tinybft_memory_init` produces the same four regions,
the all-zero ones: every scratch buffer is free and every buffer byte is 0, every agreement
slot has `seq_num` 0 with `prepare_count` and `commit_count` 0, every checkpoint certificate
has `seq_num` 0, `checkpoint_count` 0 and validity flag false, and all payload bytes of the
agreement, checkpoint and event regions are 0. The regions do not depend on the prior
memory, and calling it twice equals calling it once. -/
theorem memory_init_zeroes (cfg : Config) (m m' : Memory) :
    ((tinybft_memory_init cfg m).agreement_region = (tinybft_memory_init cfg m').agreement_region ∧
      (tinybft_memory_init cfg m).checkpoint_region =
        (tinybft_memory_init cfg m').checkpoint_region ∧
      (tinybft_memory_init cfg m).event_region = (tinybft_memory_init cfg m').event_region ∧
      (tinybft_memory_init cfg m).scratch_region = (tinybft_memory_init cfg m').scratch_region) ∧
    ((tinybft_memory_init cfg m).scratch_region.buffer_used.length = cfg.TINYBFT_MAX_REPLICAS ∧
      (∀ u ∈ (tinybft_memory_init cfg m).scratch_region.buffer_used, u = 0) ∧
      (∀ b ∈ (tinybft_memory_init cfg m).scratch_region.buffers.flatten, b = 0)) ∧
    ((tinybft_memory_init cfg m).agreement_region.slots.length = cfg.TINYBFT_WINDOW_SIZE ∧
      (∀ s ∈ (tinybft_memory_init cfg m).agreement_region.slots,
        s.seq_num = 0 ∧ s.prepare_cert.prepare_count = 0 ∧ s.commit_cert.commit_count = 0) ∧
      (∀ b ∈ agreement_region_bytes (tinybft_memory_init cfg m).agreement_region, b = 0)) ∧
    ((tinybft_memory_init cfg m).checkpoint_region.certificates.length = cfg.num_certs ∧
      (∀ c ∈ (tinybft_memory_init cfg m).checkpoint_region.certificates,
        c.seq_num = 0 ∧ c.checkpoint_count = 0 ∧ c.valid = false) ∧
      (∀ b ∈ checkpoint_region_bytes (tinybft_memory_init cfg m).checkpoint_region, b = 0)) ∧
    (∀ b ∈ event_region_bytes (tinybft_memory_init cfg m).event_region, b = 0) ∧
    tinybft_memory_init cfg (tinybft_memory_init cfg m) = tinybft_memory_init cfg m := by
  refine ⟨⟨rfl, rfl, rfl, rfl⟩, ⟨?_, ?_, ?_⟩, ⟨?_, ?_, ?_⟩, ⟨?_, ?_, ?_⟩, ?_, rfl⟩
  · simp [tinybft_memory_init, zero_scratch_region]
  · intro u hu
    exact List.eq_of_mem_replicate hu
  · intro b hb
    exact zero_matrix_flatten_zero _ _ b hb
  · simp [tinybft_memory_init, zero_agreement_region]
  · intro s hs
    have := List.eq_of_mem_replicate hs
    subst this
    exact ⟨rfl, rfl, rfl⟩
  · intro b hb
    exact agreement_region_bytes_zero cfg b hb
  · simp [tinybft_memory_init, zero_checkpoint_region]
  · intro c hc
    have := List.eq_of_mem_replicate hc
    subst this
    exact ⟨rfl, rfl, rfl⟩
  · intro b hb
    exact checkpoint_region_bytes_zero cfg b hb
  · intro b hb
    exact event_region_bytes_zero cfg b hb

/-- C19. On a non-empty window of `uint32_t` sequence numbers let `r` be the slot that
`tinybft_init_agreement_slot(seq)` selects (the lowest-indexed slot of smallest sequence
number) and let `j` be the slot that `tinybft_find_agreement_slot(seq)` returns before the
call. If `j ≠ r`, then after the call the old slot `j` is unchanged (it keeps its
certificates), both `j` and `r` carry `seq`, and `tinybft_find_agreement_slot(seq)` returns
the lower of the two indices: the old slot `j`, not the freshly zeroed `r`, whenever
`j < r`. If instead slot `r` itself carries `seq`, the call zeroes that slot in place and
creates no duplicate: exactly the same slots carry `seq` before and after. -/
theorem init_resident_seq_duplicates (cfg : Config) (seq : Nat) (m : Memory)
    (hne : m.agreement_region.slots ≠ [])
    (hb : ∀ s ∈ m.agreement_region.slots, s.seq_num ≤ UINT32_MAX) :
    (∃ t, m.agreement_region.slots[(tinybft_init_agreement_slot cfg seq m).1]? = some t ∧
      ∀ u ∈ m.agreement_region.slots, t.seq_num ≤ u.seq_num) ∧
    (∀ j : Nat, (tinybft_find_agreement_slot seq m).1 = some j →
      j ≠ (tinybft_init_agreement_slot cfg seq m).1 →
      (∃ s, m.agreement_region.slots[j]? = some s ∧ s.seq_num = seq ∧
        (tinybft_init_agreement_slot cfg seq m).2.agreement_region.slots[j]? = some s) ∧
      (tinybft_init_agreement_slot cfg seq m).2.agreement_region.slots[
          (tinybft_init_agreement_slot cfg seq m).1]? =
        some { zero_agreement_slot cfg with seq_num := seq } ∧
      (tinybft_find_agreement_slot seq (tinybft_init_agreement_slot cfg seq m).2).1 =
        some (min j (tinybft_init_agreement_slot cfg seq m).1) ∧
      (j < (tinybft_init_agreement_slot cfg seq m).1 →
        (tinybft_find_agreement_slot seq (tinybft_init_agreement_slot cfg seq m).2).1 =
          some j)) ∧
    ((∃ s, m.agreement_region.slots[(tinybft_init_agreement_slot cfg seq m).1]? = some s ∧
        s.seq_num = seq) →
      (tinybft_init_agreement_slot cfg seq m).2.agreement_region.slots[
          (tinybft_init_agreement_slot cfg seq m).1]? =
        some { zero_agreement_slot cfg with seq_num := seq } ∧
      ∀ k : Nat,
        (∃ s, (tinybft_init_agreement_slot cfg seq m).2.agreement_region.slots[k]? = some s ∧
          s.seq_num = seq) ↔
        (∃ s, m.agreement_region.slots[k]? = some s ∧ s.seq_num = seq)) := by
  obtain ⟨t, ht, htmin, -⟩ := oldest_scan_top m.agreement_region.slots hne hb
  have hlt := oldest_scan_lt m.agreement_region.slots hne
  have hnew : (tinybft_init_agreement_slot cfg seq m).2.agreement_region.slots[
      (tinybft_init_agreement_slot cfg seq m).1]? =
      some { zero_agreement_slot cfg with seq_num := seq } := by
    simp [tinybft_init_agreement_slot, hlt]
  have hother : ∀ k : Nat, k ≠ (tinybft_init_agreement_slot cfg seq m).1 →
      (tinybft_init_agreement_slot cfg seq m).2.agreement_region.slots[k]? =
        m.agreement_region.slots[k]? := by
    intro k hk
    simp only [tinybft_init_agreement_slot] at hk ⊢
    exact List.getElem?_set_ne (fun h => hk h.symm)
  refine ⟨⟨t, ht, htmin⟩, ?_, ?_⟩
  · intro j hj hjr
    simp only [tinybft_find_agreement_slot] at hj
    obtain ⟨k, hk, ⟨s, hs, hss⟩, hmin⟩ := (find_agreement_scan_some seq _ 0 j).mp hj
    have hjk : j = k := by omega
    subst hjk
    have hfind : (tinybft_find_agreement_slot seq (tinybft_init_agreement_slot cfg seq m).2).1 =
        some (min j (tinybft_init_agreement_slot cfg seq m).1) := by
      simp only [tinybft_find_agreement_slot]
      rw [find_agreement_scan_some]
      refine ⟨min j (tinybft_init_agreement_slot cfg seq m).1, by omega, ?_, ?_⟩
      · rcases Nat.lt_or_ge j (tinybft_init_agreement_slot cfg seq m).1 with h | h
        · rw [Nat.min_eq_left (Nat.le_of_lt h), hother j hjr]
          exact ⟨s, hs, hss⟩
        · rw [Nat.min_eq_right h, hnew]
          exact ⟨_, rfl, rfl⟩
      · intro k' hk' u hu
        rw [hother k' (by omega)] at hu
        exact hmin k' (by omega) u hu
    refine ⟨⟨s, hs, hss, by rw [hother j hjr]; exact hs⟩, hnew, hfind, ?_⟩
    intro hlt'
    rw [hfind, Nat.min_eq_left (Nat.le_of_lt hlt')]
  · rintro ⟨s, hs, hss⟩
    refine ⟨hnew, ?_⟩
    intro k
    by_cases hk : k = (tinybft_init_agreement_slot cfg seq m).1
    · subst hk
      rw [hnew]
      constructor
      · intro _
        exact ⟨s, hs, hss⟩
      · intro _
        exact ⟨_, rfl, rfl⟩
    · rw [hother k hk]

/-- Witness for C19: the default window 3, 7, 0, 0 reached by the calls 3 and 7; a second
call for 3 selects slot 2, leaves slots 0 and 2 both carrying 3, and 3 is still found in
the old slot 0. -/
theorem init_resident_seq_duplicates_witness :
    resident_seq_nums (init_many exampleConfig [3, 7] (startup exampleConfig)) = [3, 7, 0, 0] ∧
    (tinybft_init_agreement_slot exampleConfig 3
      (init_many exampleConfig [3, 7] (startup exampleConfig))).1 = 2 ∧
    resident_seq_nums (tinybft_init_agreement_slot exampleConfig 3
      (init_many exampleConfig [3, 7] (startup exampleConfig))).2 = [3, 7, 3, 0] ∧
    (tinybft_find_agreement_slot 3 (tinybft_init_agreement_slot exampleConfig 3
      (init_many exampleConfig [3, 7] (startup exampleConfig))).2).1 = some 0 :=
  ⟨by decide, by decide, by decide,
    (init_resident_seq_duplicates exampleConfig 3
      (init_many exampleConfig [3, 7] (startup exampleConfig)) (by decide) (by decide)).2.1 0
      (by decide) (by decide) |>.2.2.2 (by decide)⟩

/-- C20. Right after `tinybft_memory_init` on a build with at least one slot,
`tinybft_find_agreement_slot(seq)` reports absent for every nonzero `seq`, while
`tinybft_find_agreement_slot(0)` returns slot 0 although no slot was initialised, and
`tinybft_find_checkpoint_cert(0)` returns certificate 0 and writes nothing. In general,
after any run of `tinybft_init_agreement_slot` calls on the zeroed memory,
`tinybft_find_agreement_slot(0)` returns a slot whenever some slot of the window was
selected by none of the calls. -/
theorem seq_zero_matches_unused :
    (∀ (cfg : Config) (m0 : Memory), 0 < cfg.TINYBFT_WINDOW_SIZE →
      (∀ seq : Nat, seq ≠ 0 →
        (tinybft_find_agreement_slot seq (tinybft_memory_init cfg m0)).1 = none) ∧
      (tinybft_find_agreement_slot 0 (tinybft_memory_init cfg m0)).1 = some 0) ∧
    (∀ (cfg : Config) (m0 : Memory),
      tinybft_find_checkpoint_cert cfg 0 (tinybft_memory_init cfg m0) =
        (0, tinybft_memory_init cfg m0)) ∧
    (∀ (cfg : Config) (m0 : Memory) (calls : List Nat) (k : Nat),
      k < cfg.TINYBFT_WINDOW_SIZE →
      k ∉ init_indices cfg calls (tinybft_memory_init cfg m0) →
      (∃ s, (init_many cfg calls (tinybft_memory_init cfg m0)).agreement_region.slots[k]? =
          some s ∧ s.seq_num = 0) ∧
      (tinybft_find_agreement_slot 0
        (init_many cfg calls (tinybft_memory_init cfg m0))).1.isSome = true) := by
  refine ⟨?_, ?_, ?_⟩
  · intro cfg m0 hW
    constructor
    · intro seq hseq
      simp only [tinybft_find_agreement_slot]
      rw [find_agreement_scan_none]
      intro s hs
      simp only [tinybft_memory_init, zero_agreement_region] at hs
      rw [List.eq_of_mem_replicate hs]
      exact fun h => hseq h.symm
    · simp only [tinybft_find_agreement_slot]
      rw [find_agreement_scan_some]
      refine ⟨0, rfl, ⟨zero_agreement_slot cfg, ?_, rfl⟩, by intro k' hk'; omega⟩
      simp [tinybft_memory_init, zero_agreement_region, hW]
  · intro cfg m0
    apply find_checkpoint_cert_present
    rw [find_checkpoint_scan_some]
    refine ⟨0, rfl, ⟨zero_checkpoint_certificate cfg, ?_, rfl⟩, by intro k' hk'; omega⟩
    simp [tinybft_memory_init, zero_checkpoint_region, Config.num_certs]
  · intro cfg m0 calls k hk hun
    have hslot : (init_many cfg calls (tinybft_memory_init cfg m0)).agreement_region.slots[k]? =
        some (zero_agreement_slot cfg) := by
      rw [init_many_untouched cfg k calls _ hun]
      simp [tinybft_memory_init, zero_agreement_region, hk]
    refine ⟨⟨_, hslot, rfl⟩, ?_⟩
    rw [Option.isSome_iff_ne_none]
    intro hnone
    simp only [tinybft_find_agreement_slot] at hnone
    have hall := (find_agreement_scan_none 0 _ 0).mp hnone
    obtain ⟨h, he⟩ := List.getElem?_eq_some.mp hslot
    exact hall _ (he ▸ List.getElem_mem h) rfl

/-- Witness for C20: the default build; after the calls 5 and 6 slot 3 was never selected
and 0 is still found. -/
theorem seq_zero_matches_unused_witness :
    (tinybft_find_agreement_slot 0
      (tinybft_memory_init exampleConfig (startup exampleConfig))).1 = some 0 ∧
    init_indices exampleConfig [5, 6]
      (tinybft_memory_init exampleConfig (startup exampleConfig)) = [0, 1] ∧
    (tinybft_find_agreement_slot 0 (init_many exampleConfig [5, 6]
      (tinybft_memory_init exampleConfig (startup exampleConfig)))).1.isSome = true :=
  ⟨(seq_zero_matches_unused.1 exampleConfig (startup exampleConfig) (by decide)).2,
    by decide,
    (seq_zero_matches_unused.2.2 exampleConfig (startup exampleConfig) [5, 6] 3
      (by decide) (by decide)).2⟩

/-- C21 at the failing input: the key of 32 characters `k` and the value `v` are both
accepted by the command parser, and the freshly initialised store of replica 0 has unused
entries; after `update_kv_store(0, key, "v")` the entry written holds only the first 31
characters of the key, so the GET lookup with the key as typed finds nothing on any
replica. A second `update_kv_store` with the same key does not update that entry but
fills another one (two used entries), and GET still finds nothing. -/
theorem put_long_key_then_get_not_found :
    parser_accepts long_key ∧ parser_accepts ['v'] ∧ long_key.length = 32 ∧
    (∃ r, initialize_system.replicas[0]? = some r ∧ ∃ e ∈ r.kv_store, e.used = false) ∧
    execute_get_command long_key (update_kv_store 0 long_key ['v'] initialize_system) =
      [none, none, none, none] ∧
    ((update_kv_store 0 long_key ['v'] initialize_system).replicas[0]?.bind
        (fun r => r.kv_store[0]?)) =
      some { key := List.replicate 31 'k', value := ['v'], used := true } ∧
    used_entries (update_kv_store 0 long_key ['v'] initialize_system) 0 = 1 ∧
    used_entries (update_kv_store 0 long_key ['w']
      (update_kv_store 0 long_key ['v'] initialize_system)) 0 = 2 ∧
    execute_get_command long_key (update_kv_store 0 long_key ['w']
      (update_kv_store 0 long_key ['v'] initialize_system)) = [none, none, none, none] := by
  refine ⟨⟨by decide, by decide⟩, ⟨by decide, by decide⟩, by decide, ?_, by decide, by decide,
    by decide, by decide, by decide⟩
  exact ⟨_, rfl, by decide⟩

end TinyBFT
